/-
  Verification of the OS_course_design user-space filesystem.

  This file shallowly embeds the core C++ components (FreeBitmap from
  src/core/bitmap.cpp, CacheManager from src/core/cache.cpp, Directory from
  src/core/directory.cpp, INodeManager and the SimpleFileSystem facade from
  filesystem.cpp / the inode-manager translation unit) as executable Lean
  definitions, and proves or refutes the specification claims about them.

  Modelling conventions:
  - Machine integers (uint8 / uint32) are Nat; wrap-around is written with
    an explicit modulus where the C++ value can actually wrap.
  - Functions returning bool with out-parameters become functions returning
    a pair or an Option.
  - Wall-clock timestamps (create_time / modify_time) are not modelled:
    no claim observes them, and they are the only nondeterministic inputs.
  - Locks are not modelled: every claim is about the sequential behaviour.
-/
import Mathlib

set_option maxRecDepth 10000

namespace OSFS

/-- Size of a disk block in bytes, the BLOCK_SIZE constant of disk.h. -/
def BLOCK_SIZE : Nat := 4096

/-- Modulus of the C++ uint32 type. -/
def U32 : Nat := 4294967296

/-! ## FreeBitmap (src/core/bitmap.cpp)

The bitmap is a byte vector; bit b of byte i records whether block 8*i+b is
allocated (1) or free (0).  `free_blocks_` is the cached count of free
blocks, a uint32 in the source. -/

structure FreeBitmap where
  bitmap_ : List Nat
  total_blocks_ : Nat
  free_blocks_ : Nat
deriving DecidableEq

namespace FreeBitmap

/-- The constructor FreeBitmap::FreeBitmap(total_blocks): all blocks free.
(The zero-argument throw branch for total_blocks == 0 is not modelled; the
configurations in the claims all have total_blocks > 0.) -/
def create (total_blocks : Nat) : FreeBitmap :=
  { bitmap_ := List.replicate ((total_blocks + 7) / 8) 0
    total_blocks_ := total_blocks
    free_blocks_ := total_blocks }

/-- FreeBitmap::is_block_free. -/
def is_block_free (fb : FreeBitmap) (block_no : Nat) : Bool :=
  if block_no ≥ fb.total_blocks_ then false
  else ! (fb.bitmap_.getD (block_no / 8) 0).testBit (block_no % 8)

/-- FreeBitmap::set_block_status.  The free-count updates are uint32
increments and decrements, taken modulo 2^32.  Clearing a bit is
byte &= ~mask, i.e. byte & (0xFF ^ mask) on a uint8. -/
def set_block_status (fb : FreeBitmap) (block_no : Nat) (allocated : Bool) :
    FreeBitmap :=
  if block_no ≥ fb.total_blocks_ then fb
  else
    let byteIndex := block_no / 8
    let bitIndex := block_no % 8
    let byte := fb.bitmap_.getD byteIndex 0
    let mask := 1 <<< bitIndex
    let was_free := ! byte.testBit bitIndex
    if allocated then
      { fb with
        bitmap_ := fb.bitmap_.set byteIndex (byte ||| mask)
        free_blocks_ :=
          if was_free then (fb.free_blocks_ + (U32 - 1)) % U32
          else fb.free_blocks_ }
    else
      { fb with
        bitmap_ := fb.bitmap_.set byteIndex (byte &&& (255 ^^^ mask))
        free_blocks_ :=
          if ! was_free then (fb.free_blocks_ + 1) % U32
          else fb.free_blocks_ }

/-- The scan loop of FreeBitmap::find_first_free_block.  The loop body runs
for block = first, first+1, ... while fewer than fuel iterations have
happened, which matches the C++ bound block < total_blocks_ when called
with fuel = total_blocks_ - first. -/
def findFreeFrom (fb : FreeBitmap) : Nat → Nat → Option Nat
  | _, 0 => none
  | block, fuel + 1 =>
    if fb.is_block_free block then some block
    else findFreeFrom fb (block + 1) fuel

/-- FreeBitmap::find_first_free_block (UINT32_MAX becomes none). -/
def find_first_free_block (fb : FreeBitmap) : Option Nat :=
  findFreeFrom fb 0 fb.total_blocks_

/-- The inner all-free check of find_consecutive_free_blocks. -/
def allFreeRun (fb : FreeBitmap) (start count : Nat) : Bool :=
  (List.range count).all (fun i => fb.is_block_free (start + i))

/-- The outer scan loop of find_consecutive_free_blocks, iterating
start = first, first+1, ... for fuel iterations. -/
def findConsecFrom (fb : FreeBitmap) (count : Nat) : Nat → Nat → Option Nat
  | _, 0 => none
  | start, fuel + 1 =>
    if fb.allFreeRun start count then some start
    else findConsecFrom fb count (start + 1) fuel

/-- FreeBitmap::find_consecutive_free_blocks.  The loop runs for
start = 0 .. total_blocks_ - count inclusive. -/
def find_consecutive_free_blocks (fb : FreeBitmap) (count : Nat) : Option Nat :=
  if count = 0 ∨ count > fb.free_blocks_ then none
  else findConsecFrom fb count 0 (fb.total_blocks_ - count + 1)

/-- FreeBitmap::allocate_block.  Returns (allocated block, new state);
none models the false return. -/
def allocate_block (fb : FreeBitmap) : Option Nat × FreeBitmap :=
  if fb.free_blocks_ = 0 then (none, fb)
  else
    match fb.find_first_free_block with
    | none => (none, fb)
    | some free_block => (some free_block, fb.set_block_status free_block true)

/-- FreeBitmap::allocate_consecutive_blocks. -/
def allocate_consecutive_blocks (fb : FreeBitmap) (count : Nat) :
    Option Nat × FreeBitmap :=
  if count = 0 then (none, fb)
  else if count > fb.free_blocks_ then (none, fb)
  else
    match fb.find_consecutive_free_blocks count with
    | none => (none, fb)
    | some start =>
      (some start,
        (List.range count).foldl
          (fun s i => s.set_block_status (start + i) true) fb)

/-- FreeBitmap::free_block. -/
def free_block (fb : FreeBitmap) (block_no : Nat) : FreeBitmap :=
  if block_no ≥ fb.total_blocks_ then fb
  else fb.set_block_status block_no false

/-- FreeBitmap::free_consecutive_blocks.  Frees start_block .. end_block-1
where end_block = min (start_block + count) total_blocks_. -/
def free_consecutive_blocks (fb : FreeBitmap) (start_block count : Nat) :
    FreeBitmap :=
  if start_block ≥ fb.total_blocks_ ∨ count = 0 then fb
  else
    let endBlock := min (start_block + count) fb.total_blocks_
    (List.range (endBlock - start_block)).foldl
      (fun s i => s.set_block_status (start_block + i) false) fb

/-- FreeBitmap::is_block_allocated.  Note the source returns false for an
out-of-range block number. -/
def is_block_allocated (fb : FreeBitmap) (block_no : Nat) : Bool :=
  if block_no ≥ fb.total_blocks_ then false
  else ! fb.is_block_free block_no

/-- FreeBitmap::mark_block_used. -/
def mark_block_used (fb : FreeBitmap) (block_id : Nat) : FreeBitmap :=
  if block_id ≥ fb.total_blocks_ then fb
  else fb.set_block_status block_id true

/-- The void FreeBitmap::initialize(): zero the byte array (std::fill keeps
its length) and reset the free count to total_blocks_. -/
def initialize0 (fb : FreeBitmap) : FreeBitmap :=
  { fb with
    bitmap_ := List.replicate fb.bitmap_.length 0
    free_blocks_ := fb.total_blocks_ }

/-- The free-count rescan shared by deserialize_from and load. -/
def recomputeFree (fb : FreeBitmap) : FreeBitmap :=
  { fb with
    free_blocks_ := (List.range fb.total_blocks_).countP fb.is_block_free }

/-- FreeBitmap::deserialize_from.  buffer is the raw byte list; the length
check models buffer_size < bitmap_.size(). -/
def deserialize_from (fb : FreeBitmap) (buffer : List Nat) :
    Bool × FreeBitmap :=
  if buffer.length < fb.bitmap_.length then (false, fb)
  else
    (true, recomputeFree { fb with bitmap_ := buffer.take fb.bitmap_.length })

/-- FreeBitmap::load.  The disk is abstracted by its total block count and
the byte content of block 0.  The byte array is resized to
(total+7)/8 (new bytes zero), then disk read_block(0) overwrites its first
BLOCK_SIZE bytes (fewer if the array is shorter), then the free count is
rescanned. -/
def load (fb : FreeBitmap) (diskTotal : Nat) (block0 : List Nat) :
    Bool × FreeBitmap :=
  if diskTotal = 0 then (false, fb)
  else
    let size := (diskTotal + 7) / 8
    let resized := (fb.bitmap_ ++
      List.replicate (size - fb.bitmap_.length) 0).take size
    let n := min BLOCK_SIZE size
    let bytes := (block0.take n ++ List.replicate (n - block0.length) 0)
      ++ resized.drop n
    (true, recomputeFree
      { fb with total_blocks_ := diskTotal, bitmap_ := bytes })

/-- Number of allocated blocks among the in-range block indices: the
popcount of the length-total_blocks_ bit array of §4.2 of the spec. -/
def popcountInRange (fb : FreeBitmap) : Nat :=
  (List.range fb.total_blocks_).countP (fun b => ! fb.is_block_free b)

/-- Invariant I5: the recorded free count equals total blocks minus the
number of allocated (1) bits of the bitmap. -/
def Inv (fb : FreeBitmap) : Prop :=
  fb.free_blocks_ = fb.total_blocks_ - fb.popcountInRange

instance (fb : FreeBitmap) : Decidable fb.Inv := by
  unfold Inv; infer_instance

/-- The number of free in-range blocks. -/
def freeCount (fb : FreeBitmap) : Nat :=
  (List.range fb.total_blocks_).countP fb.is_block_free

/-- Structural well-formedness guaranteed by the C++ types: the byte vector
covers all blocks, and total_blocks_ fits in a uint32. -/
def WF (fb : FreeBitmap) : Prop :=
  (fb.total_blocks_ + 7) / 8 ≤ fb.bitmap_.length ∧ fb.total_blocks_ < U32

instance (fb : FreeBitmap) : Decidable fb.WF := by
  unfold WF; infer_instance

end FreeBitmap

/-! ### End of FreeBitmap definitions -/

/-! ## Directory pages (src/core/directory.cpp)

A directory data block serializes as a uint32 entry count followed by the
packed DirectoryEntry structs, each memcpy-ed verbatim.  The struct is
struct DirectoryEntry { uint32_t inode_id; char name[64]; uint8_t type; },
whose size with alignment padding is 72 bytes.  Multi-byte integers are
little-endian. -/

namespace Dir

/-- One directory entry as stored in the struct: the 64-byte name array is
kept verbatim. -/
structure DirectoryEntry where
  inode_id : Nat
  name : List Nat
  type : Nat
deriving DecidableEq

/-- Directory::MAX_ENTRIES. -/
def MAX_ENTRIES : Nat := 256

/-- sizeof(DirectoryEntry): 4 (inode_id) + 64 (name) + 1 (type) + 3 bytes
of alignment padding. -/
def entrySize : Nat := 72

/-- Little-endian byte image of a uint32. -/
def u32le (n : Nat) : List Nat :=
  [n % 256, n / 256 % 256, n / 256 / 256 % 256, n / 256 / 256 / 256 % 256]

/-- Read back a little-endian uint32. -/
def decodeU32 (b : List Nat) : Nat :=
  b.getD 0 0 + 256 * (b.getD 1 0 + 256 * (b.getD 2 0 + 256 * b.getD 3 0))

/-- Byte image of one packed DirectoryEntry (padding bytes zero). -/
def encodeEntry (e : DirectoryEntry) : List Nat :=
  u32le e.inode_id ++ e.name ++ [e.type, 0, 0, 0]

/-- Reinterpret 72 bytes as a DirectoryEntry (the memcpy in deserialize). -/
def decodeEntry (b : List Nat) : DirectoryEntry :=
  { inode_id := decodeU32 (b.take 4)
    name := (b.drop 4).take 64
    type := b.getD 68 0 }

/-- Directory::serialize: the count header followed by the packed entries. -/
def serialize (entries : List DirectoryEntry) : List Nat :=
  u32le entries.length ++ (entries.map encodeEntry).flatten

/-- The entry-array memcpy of Directory::deserialize, one entry at a time. -/
def parseEntries : Nat → List Nat → List DirectoryEntry
  | 0, _ => []
  | k + 1, b => decodeEntry (b.take entrySize) :: parseEntries k (b.drop entrySize)

/-- Directory::deserialize: checks the size header and the MAX_ENTRIES
bound, then reinterprets the packed entries; none models the false return. -/
def deserialize (data : List Nat) : Option (List DirectoryEntry) :=
  if data.length < 4 then none
  else
    let count := decodeU32 (data.take 4)
    if data.length ≠ 4 + count * entrySize ∨ count > MAX_ENTRIES then none
    else some (parseEntries count (data.drop 4))

end Dir

/-! ## Block device and cache (src/core/disk.h, disk.cpp, cache.cpp)

The VirtualDisk is abstracted by its block count and per-block content;
reads and writes fail exactly for out-of-range block numbers (host I/O
errors beyond that are not modelled).  Every cache operation additionally
returns the list of device operations it performed, so that claims about
when the device is touched can be stated.  The outer Option is the C++
exception thrown by write_back_page on a failed device write; the access
time field of a page is not modelled (eviction is driven by the FIFO queue
alone). -/

namespace Cache

structure VDisk where
  total_blocks_ : Nat
  data : Nat → List Nat

/-- VirtualDisk::read_block. -/
def VDisk.read_block (d : VDisk) (block_no : Nat) : Option (List Nat) :=
  if block_no ≥ d.total_blocks_ then none else some (d.data block_no)

/-- VirtualDisk::write_block. -/
def VDisk.write_block (d : VDisk) (block_no : Nat) (buf : List Nat) :
    Option VDisk :=
  if block_no ≥ d.total_blocks_ then none
  else some { d with data := fun b => if b = block_no then buf else d.data b }

/-- A device operation performed by the cache. -/
inductive DiskOp where
  | read (block_no : Nat)
  | write (block_no : Nat)
deriving DecidableEq

/-- The sentinel stored in an empty frame's block_no. -/
def UINT32_MAX : Nat := 4294967295

structure CachePage where
  block_no : Nat
  dirty : Bool
  data : List Nat
deriving DecidableEq

instance : Inhabited CachePage :=
  ⟨{ block_no := UINT32_MAX, dirty := false, data := [] }⟩

/-- The unordered_map block_to_page_ as an association list. -/
def mapErase (m : List (Nat × Nat)) (k : Nat) : List (Nat × Nat) :=
  m.filter (fun p => p.1 != k)

def mapInsert (m : List (Nat × Nat)) (k v : Nat) : List (Nat × Nat) :=
  (k, v) :: mapErase m k

def mapLookup (m : List (Nat × Nat)) (k : Nat) : Option Nat :=
  (m.find? (fun p => p.1 == k)).map (fun p => p.2)

structure CacheManager where
  pages_ : List CachePage
  fifo_queue_ : List Nat
  block_to_page_ : List (Nat × Nat)
  page_count_ : Nat
  block_size_ : Nat
deriving DecidableEq

/-- The CacheManager constructor: page_count empty frames whose buffers are
zero-filled. -/
def CacheManager.mkCache (page_count block_size : Nat) : CacheManager :=
  { pages_ := List.replicate page_count
      { block_no := UINT32_MAX, dirty := false,
        data := List.replicate block_size 0 }
    fifo_queue_ := []
    block_to_page_ := []
    page_count_ := page_count
    block_size_ := block_size }

/-- CacheManager::find_page. -/
def find_page (c : CacheManager) (block_no : Nat) : Option Nat :=
  mapLookup c.block_to_page_ block_no

/-- CacheManager::write_back_page; none is the runtime_error thrown when
the device write fails. -/
def write_back_page (d : VDisk) (c : CacheManager) (page_index : Nat) :
    Option (CacheManager × VDisk × List DiskOp) :=
  if (c.pages_.getD page_index default).block_no ≠ UINT32_MAX then
    match d.write_block (c.pages_.getD page_index default).block_no
        (c.pages_.getD page_index default).data with
    | none => none
    | some d2 =>
      some ({ c with pages_ := (c.pages_.set page_index
                { c.pages_.getD page_index default with dirty := false }) },
            d2, [DiskOp.write (c.pages_.getD page_index default).block_no])
  else some (c, d, [])

/-- CacheManager::get_free_page: lowest empty frame first, else pop the
FIFO head, write it back if dirty, and drop its reverse-map entry.  The
inner Option Nat is the returned frame index (-1 becomes none). -/
def get_free_page (d : VDisk) (c : CacheManager) :
    Option (Option Nat × CacheManager × VDisk × List DiskOp) :=
  match (List.range c.pages_.length).find?
      (fun i => (c.pages_.getD i default).block_no == UINT32_MAX) with
  | some i => some (some i, c, d, [])
  | none =>
    match c.fifo_queue_ with
    | [] => some (none, c, d, [])
    | victim :: rest =>
      if (c.pages_.getD victim default).dirty then
        match write_back_page d { c with fifo_queue_ := rest } victim with
        | none => none
        | some (c2, d2, t) =>
          some (some victim,
            { c2 with block_to_page_ := (mapErase c2.block_to_page_
                ((c2.pages_.getD victim default).block_no)) }, d2, t)
      else
        some (some victim,
          { c with fifo_queue_ := rest,
                   block_to_page_ := (mapErase c.block_to_page_
                     ((c.pages_.getD victim default).block_no)) }, d, [])

/-- CacheManager::read_block.  On success the copied-out buffer is
returned; the inner none is the false return. -/
def read_block (d : VDisk) (c : CacheManager) (block_no : Nat) :
    Option (Option (List Nat) × CacheManager × VDisk × List DiskOp) :=
  match find_page c block_no with
  | some pi => some (some ((c.pages_.getD pi default).data), c, d, [])
  | none =>
    match get_free_page d c with
    | none => none
    | some (none, c1, d1, t) => some (none, c1, d1, t)
    | some (some pi, c1, d1, t) =>
      match d1.read_block block_no with
      | none => some (none, c1, d1, t ++ [DiskOp.read block_no])
      | some bytes =>
        some (some bytes,
          { c1 with
            pages_ := (c1.pages_.set pi
              { c1.pages_.getD pi default with
                  block_no := block_no, dirty := false, data := bytes }),
            block_to_page_ := mapInsert c1.block_to_page_ block_no pi,
            fifo_queue_ := c1.fifo_queue_ ++ [pi] },
          d1, t ++ [DiskOp.read block_no])

/-- CacheManager::write_block.  Note the miss path never reads the device:
the frame is overwritten directly with buf. -/
def write_block (d : VDisk) (c : CacheManager) (block_no : Nat)
    (buf : List Nat) :
    Option (Bool × CacheManager × VDisk × List DiskOp) :=
  match find_page c block_no with
  | some pi =>
    some (true,
      { c with pages_ := (c.pages_.set pi
          { c.pages_.getD pi default with data := buf, dirty := true }) },
      d, [])
  | none =>
    match get_free_page d c with
    | none => none
    | some (none, c1, d1, t) => some (false, c1, d1, t)
    | some (some pi, c1, d1, t) =>
      some (true,
        { c1 with
          pages_ := (c1.pages_.set pi
            { c1.pages_.getD pi default with
                block_no := block_no, data := buf, dirty := true }),
          block_to_page_ := mapInsert c1.block_to_page_ block_no pi,
          fifo_queue_ := c1.fifo_queue_ ++ [pi] },
        d1, t)

/-- Structural invariants maintained by the C++ cache: every reverse-map
and queue entry is a valid frame index. -/
def CacheWF (c : CacheManager) : Prop :=
  (∀ p ∈ c.block_to_page_, p.2 < c.pages_.length) ∧
  (∀ i ∈ c.fifo_queue_, i < c.pages_.length)

instance (c : CacheManager) : Decidable (CacheWF c) := by
  unfold CacheWF
  infer_instance

/-- The disk used by the S6 scenario: 100 blocks, block n holding [n]. -/
def c6_disk : VDisk := { total_blocks_ := 100, data := fun n => [n] }

/-- One read step of the S6 scenario, dropping the trace. -/
def c6_read (s : Option (CacheManager × VDisk)) (b : Nat) :
    Option (CacheManager × VDisk) :=
  s.bind fun p => (read_block p.2 p.1 b).bind fun r =>
    match r.1 with
    | none => none
    | some _ => some (r.2.1, r.2.2.1)

/-- The S6 scenario: with 4 frames, read blocks 10, 11, 12, 13, 14. -/
def c6_final : Option (CacheManager × VDisk) :=
  [10, 11, 12, 13, 14].foldl c6_read
    (some (CacheManager.mkCache 4 4096, c6_disk))

/-- A one-frame cache holding block 10, used as a concrete hit witness. -/
def c6_hit_cache : CacheManager :=
  { pages_ := [{ block_no := 10, dirty := false, data := [10] }]
    fifo_queue_ := [0]
    block_to_page_ := [(10, 0)]
    page_count_ := 1
    block_size_ := 4096 }

/-- The state of c6_hit_cache after write_block(10, [9]): same frame,
overwritten and dirty. -/
def c4_after : CacheManager :=
  { pages_ := [{ block_no := 10, dirty := true, data := [9] }]
    fifo_queue_ := [0]
    block_to_page_ := [(10, 0)]
    page_count_ := 1
    block_size_ := 4096 }

end Cache

/-! ## INodeManager and the SimpleFileSystem facade

The INodeManager (the inode-manager translation unit whose header is
inode.h) accesses the VirtualDisk directly (the CacheManager created by the
facade is never handed to it), so disk state is modelled by region:
- inodeTab is the inode-table region (blocks 1..27), indexed by inode id;
  reads and writes of table blocks are in range for every configuration
  considered (28 <= total blocks), so they are modelled as always
  succeeding;
- dirTab holds the directory payload of each directory inode, keyed by the
  owning inode id (each directory owns exactly one data block and every
  mutation is written through by save_directory_content, so the id-keyed
  view coincides with the block content as long as live extents do not
  alias);
- fileBlocks holds file-content data blocks by block number;
- names are Lean Strings (the C++ std::string byte strings; the claims use
  ASCII names, where byte length and character count agree).
The write-through directory-object cache of the INodeManager is identified
with the on-disk directory payload (every mutation saves the page). -/

namespace IM

/-- MAX_FILES from the inode-manager constants. -/
def MAX_FILES : Nat := 1024

def ROOT_INODE_ID : Nat := 1

def FS_FILE : Nat := 0

def FS_DIRECTORY : Nat := 1

/-- The INode struct (timestamps omitted: nothing observes them). -/
structure INode where
  id : Nat
  type : Nat
  size : Nat
  start_block : Nat
  block_count : Nat
  parent_id : Nat
  name : String
deriving DecidableEq

/-- The all-zero record a freshly zero-filled disk holds in every slot. -/
instance : Inhabited INode :=
  ⟨{ id := 0, type := 0, size := 0, start_block := 0, block_count := 0,
     parent_id := 0, name := "" }⟩

/-- One directory entry as the INodeManager sees it (name, inode, type);
the byte-level packing is the Dir namespace's concern. -/
structure SDirEntry where
  name : String
  inode_id : Nat
  type : Nat
deriving DecidableEq

/-- The filesystem state driven by the INodeManager: the runtime fields
(inode_used_, inode_count_, the FreeBitmap) plus the disk regions. -/
structure FS where
  bitmap : FreeBitmap
  inode_used : List Bool
  inode_count : Nat
  inodeTab : List INode
  dirTab : List (List SDirEntry)
  fileBlocks : Nat → List Char

instance : Inhabited FS :=
  ⟨{ bitmap := FreeBitmap.create 1, inode_used := [], inode_count := 0,
     inodeTab := [], dirTab := [], fileBlocks := fun _ => [] }⟩

/-- Directory::find_entry (first entry with an equal name). -/
def dFind (entries : List SDirEntry) (name : String) : Option SDirEntry :=
  entries.find? (fun e => e.name == name)

/-- Directory::add_entry: rejects an empty or over-long name, a duplicate,
or a full page, else appends. -/
def dAdd (entries : List SDirEntry) (name : String) (inode_id ty : Nat) :
    Option (List SDirEntry) :=
  if name.length = 0 ∨ name.length ≥ 64 then none
  else if (dFind entries name).isSome then none
  else if entries.length ≥ Dir.MAX_ENTRIES then none
  else some (entries ++ [{ name := name, inode_id := inode_id, type := ty }])

/-- Directory::remove_entry: erases the first entry with the name. -/
def dRemove (entries : List SDirEntry) (name : String) :
    Option (List SDirEntry) :=
  if (dFind entries name).isSome then
    some (entries.eraseP (fun e => e.name == name))
  else none

/-- INodeManager::read_inode: fails for an out-of-range id or an unused
slot, else yields the table record. -/
def read_inode (fs : FS) (inode_id : Nat) : Option INode :=
  if inode_id ≥ MAX_FILES then none
  else if fs.inode_used.getD inode_id false then
    some (fs.inodeTab.getD inode_id default)
  else none

/-- INodeManager::write_inode (table-block read-modify-write). -/
def write_inode (fs : FS) (inode_id : Nat) (node : INode) : Option FS :=
  if inode_id ≥ MAX_FILES then none
  else some { fs with inodeTab := fs.inodeTab.set inode_id node }

/-- INodeManager::get_directory / load_directory_content: the directory
object for a used directory inode. -/
def get_directory (fs : FS) (dir_id : Nat) : Option (List SDirEntry) :=
  match read_inode fs dir_id with
  | none => none
  | some node =>
    if node.type ≠ FS_DIRECTORY then none
    else some (fs.dirTab.getD dir_id [])

/-- The byte size of Directory::serialize output for an entry list. -/
def serializedSize (entries : List SDirEntry) : Nat :=
  4 + Dir.entrySize * entries.length

/-- INodeManager::save_directory_content: requires an allocated data block,
a page that fits in one block, and an in-range block write; updates the
page and the directory inode's size. -/
def save_directory_content (fs : FS) (dir_id : Nat)
    (entries : List SDirEntry) : Option FS :=
  match read_inode fs dir_id with
  | none => none
  | some node =>
    if node.block_count = 0 then none
    else if serializedSize entries > BLOCK_SIZE then none
    else if node.start_block ≥ fs.bitmap.total_blocks_ then none
    else write_inode { fs with dirTab := fs.dirTab.set dir_id entries }
      dir_id { node with size := serializedSize entries }

/-- INodeManager::add_directory_entry. -/
def add_directory_entry (fs : FS) (dir_id : Nat) (name : String)
    (child_id ty : Nat) : Option FS :=
  match get_directory fs dir_id with
  | none => none
  | some entries =>
    match dAdd entries name child_id ty with
    | none => none
    | some entries2 => save_directory_content fs dir_id entries2

/-- INodeManager::remove_directory_entry. -/
def remove_directory_entry (fs : FS) (dir_id : Nat) (name : String) :
    Option FS :=
  match get_directory fs dir_id with
  | none => none
  | some entries =>
    match dRemove entries name with
    | none => none
    | some entries2 => save_directory_content fs dir_id entries2

/-- INodeManager::find_inode (modern version: a directory lookup). -/
def find_inode (fs : FS) (parent_id : Nat) (name : String) : Option Nat :=
  match get_directory fs parent_id with
  | none => none
  | some dir =>
    match dFind dir name with
    | none => none
    | some e => some e.inode_id

/-- The stringstream/getline tokenization of split_path: the segments of
the character list between slashes. -/
def splitSegs : List Char → List String
  | [] => [""]
  | c :: rest =>
    if c = '/' then "" :: splitSegs rest
    else
      match splitSegs rest with
      | [] => [String.mk [c]]
      | seg :: segs => String.mk (c :: seg.data) :: segs

/-- INodeManager::split_path: split on slashes, drop empty and dot
segments, pop on dot-dot. -/
def split_path (path : String) : List String :=
  (splitSegs path.data).foldl
    (fun comps item =>
      if item = "" ∨ item = "." then comps
      else if item = ".." then comps.dropLast
      else comps ++ [item]) []

/-- The component walk of INodeManager::resolve_path. -/
def resolveFrom (fs : FS) : List String → Nat → Option Nat
  | [], cur => some cur
  | comp :: rest, cur =>
    match get_directory fs cur with
    | none => none
    | some dir =>
      match dFind dir comp with
      | none => none
      | some e => resolveFrom fs rest e.inode_id

/-- INodeManager::resolve_path. -/
def resolve_path (fs : FS) (normalized : String) : Option Nat :=
  if normalized = "/" then some ROOT_INODE_ID
  else resolveFrom fs (split_path normalized) ROOT_INODE_ID

/-- INodeManager::calculate_blocks_needed. -/
def calculate_blocks_needed (size : Nat) : Nat :=
  (size + BLOCK_SIZE - 1) / BLOCK_SIZE

/-- INodeManager::delete_inode: removes the entry from the parent (result
ignored), frees the extent, clears the used flag.  The uint32 decrement of
inode_count_ is modelled as a truncating Nat decrement (the count is never
observed by a claim). -/
def delete_inode (fs : FS) (inode_id : Nat) : Bool × FS :=
  if inode_id ≥ MAX_FILES then (false, fs)
  else if fs.inode_used.getD inode_id false = false then (false, fs)
  else
    match read_inode fs inode_id with
    | none => (false, fs)
    | some node =>
      let fs1 := if node.parent_id ≠ inode_id then
          (remove_directory_entry fs node.parent_id node.name).getD fs
        else fs
      let fs2 := if node.block_count > 0 then
          { fs1 with bitmap := (fs1.bitmap.free_consecutive_blocks
              node.start_block node.block_count) }
        else fs1
      (true, { fs2 with inode_used := (fs2.inode_used.set inode_id false),
                        inode_count := fs2.inode_count - 1 })

/-- The slot scan of INodeManager::create_inode (i = 1 .. MAX_FILES-1). -/
def findFreeSlot (used : List Bool) : Option Nat :=
  (List.range' 1 (MAX_FILES - 1)).find? (fun i => ! used.getD i false)

/-- The strncpy of a name into the 63-byte-capped inode name field. -/
def strncpy63 (name : String) : String := String.mk (name.data.take 63)

/-- INodeManager::create_inode (modern version).  Returns the C++ int32
code: the new inode id on success, -1 / -2 / -3 on the failure paths. -/
def create_inode (fs : FS) (parent_id ty : Nat) (name : String)
    (size : Nat) : Int × FS :=
  if fs.inode_count ≥ MAX_FILES then (-1, fs)
  else
    match findFreeSlot fs.inode_used with
    | none => (-1, fs)
    | some i =>
      match (if ty = FS_FILE then
          fs.bitmap.allocate_consecutive_blocks (calculate_blocks_needed size)
        else fs.bitmap.allocate_consecutive_blocks 1) with
      | (none, _) => (-2, { fs with inode_used := (fs.inode_used.set i true).set i false })
      | (some start_block, bm2) =>
        let block_count := if ty = FS_FILE then calculate_blocks_needed size
          else 1
        let node : INode :=
          { id := i, type := ty, size := size,
            start_block := start_block, block_count := block_count,
            parent_id := parent_id, name := strncpy63 name }
        match write_inode { fs with bitmap := bm2,
                                    inode_used := (fs.inode_used.set i true) } i node with
        | none => (-3, { fs with
            bitmap := (bm2.free_consecutive_blocks start_block block_count),
            inode_used := ((fs.inode_used.set i true).set i false) })
        | some fs3 =>
          if parent_id ≠ i then
            match add_directory_entry fs3 parent_id name i ty with
            | none => (-1, (delete_inode fs3 i).2)
            | some fs4 => (Int.ofNat i,
                { fs4 with inode_used := (fs4.inode_used.set i true),
                           inode_count := fs4.inode_count + 1 })
          else (Int.ofNat i,
            { fs3 with inode_used := (fs3.inode_used.set i true),
                       inode_count := fs3.inode_count + 1 })

/-- The relocation tail of INodeManager::resize_inode: allocate a new
extent, copy the old blocks (VirtualDisk::copy_blocks, which fails on an
out-of-range block), free the old extent, rewrite the inode. -/
def resize_relocate (fs : FS) (inode_id : Nat) (node : INode)
    (new_blocks new_size : Nat) : Bool × FS :=
  match fs.bitmap.allocate_consecutive_blocks new_blocks with
  | (none, _) => (false, fs)
  | (some new_start, bm2) =>
    if (List.range node.block_count).all (fun i =>
        decide (node.start_block + i < fs.bitmap.total_blocks_) &&
        decide (new_start + i < fs.bitmap.total_blocks_)) then
      let fsC :=
        { fs with bitmap := bm2,
                  fileBlocks := (fun b =>
                    if new_start ≤ b ∧ b < new_start + node.block_count then
                      fs.fileBlocks (node.start_block + (b - new_start))
                    else fs.fileBlocks b) }
      match write_inode { fsC with bitmap := (fsC.bitmap.free_consecutive_blocks
          node.start_block node.block_count) } inode_id
          { node with start_block := new_start, block_count := new_blocks,
                      size := new_size } with
      | none => (false, { fsC with bitmap := (fsC.bitmap.free_consecutive_blocks
          node.start_block node.block_count) })
      | some fs2 => (true, fs2)
    else (false, { fs with bitmap := (bm2.free_consecutive_blocks new_start
        new_blocks) })

/-- INodeManager::resize_inode (modern version). -/
def resize_inode (fs : FS) (inode_id new_size : Nat) : Bool × FS :=
  if inode_id ≥ MAX_FILES then (false, fs)
  else if fs.inode_used.getD inode_id false = false then (false, fs)
  else
    match read_inode fs inode_id with
    | none => (false, fs)
    | some node =>
      if node.type ≠ FS_FILE then (false, fs)
      else if calculate_blocks_needed new_size = node.block_count then
        match write_inode fs inode_id { node with size := new_size } with
        | none => (false, fs)
        | some fs2 => (true, fs2)
      else if calculate_blocks_needed new_size > node.block_count
          ∧ (List.range (calculate_blocks_needed new_size - node.block_count)).all
              (fun i => ! fs.bitmap.is_block_allocated
                (node.start_block + node.block_count + i)) then
        match write_inode { fs with bitmap :=
            ((List.range (calculate_blocks_needed new_size - node.block_count)).foldl
              (fun b i => b.mark_block_used
                (node.start_block + node.block_count + i)) fs.bitmap) }
            inode_id { node with
              block_count := (calculate_blocks_needed new_size),
              size := new_size } with
        | none => (false, { fs with bitmap :=
            ((List.range (calculate_blocks_needed new_size - node.block_count)).foldl
              (fun b i => b.mark_block_used
                (node.start_block + node.block_count + i)) fs.bitmap) })
        | some fs2 => (true, fs2)
      else resize_relocate fs inode_id node (calculate_blocks_needed new_size)
        new_size

/-- The block-writing loop of INodeManager::write_file_data: block i gets
the i-th 4096-byte chunk of the content, zero-padded; a disk write fails
for an out-of-range block. -/
def write_file_blocks (content : List Char) (start : Nat) :
    Nat → Nat → FS → Bool × FS
  | _, 0, fs => (true, fs)
  | i, k + 1, fs =>
    if start + i ≥ fs.bitmap.total_blocks_ then (false, fs)
    else
      write_file_blocks content start (i + 1) k
        { fs with fileBlocks := (fun b =>
            if b = start + i then
              (content.drop (i * BLOCK_SIZE)).take BLOCK_SIZE ++
                List.replicate
                  (BLOCK_SIZE - ((content.drop (i * BLOCK_SIZE)).take
                    BLOCK_SIZE).length) (Char.ofNat 0)
            else fs.fileBlocks b) }

/-- The tail of write_file_data after the optional resize: write all
blocks, then rewrite the inode (for its modify time). -/
def write_file_tail (fs : FS) (inode_id : Nat) (node : INode)
    (content : String) : Bool × FS :=
  match write_file_blocks content.data node.start_block 0 node.block_count
      fs with
  | (false, fs2) => (false, fs2)
  | (true, fs2) =>
    match write_inode fs2 inode_id node with
    | none => (false, fs2)
    | some fs3 => (true, fs3)

/-- INodeManager::write_file_data. -/
def write_file_data (fs : FS) (inode_id : Nat) (content : String) :
    Bool × FS :=
  match read_inode fs inode_id with
  | none => (false, fs)
  | some node0 =>
    if node0.type ≠ FS_FILE then (false, fs)
    else if node0.size = content.length then
      write_file_tail fs inode_id node0 content
    else
      match resize_inode fs inode_id content.length with
      | (false, fs2) => (false, fs2)
      | (true, fs2) =>
        match read_inode fs2 inode_id with
        | none => (false, fs2)
        | some node1 => write_file_tail fs2 inode_id node1 content

/-- The buffer filled by INodeManager::read_file_data: a zero-initialized
buffer of the inode's size, overwritten with the first size bytes of the
concatenated data blocks. -/
def readBuffer (fs : FS) (node : INode) : List Char :=
  ((List.range node.block_count).map
      (fun i => fs.fileBlocks (node.start_block + i))).flatten.take node.size
    ++ List.replicate (node.size -
        (((List.range node.block_count).map
          (fun i => fs.fileBlocks (node.start_block + i))).flatten.take
            node.size).length) (Char.ofNat 0)

/-- INodeManager::read_file_data: fails for a non-file inode or an
out-of-range block read. -/
def read_file_data (fs : FS) (inode_id : Nat) : Option String :=
  match read_inode fs inode_id with
  | none => none
  | some node =>
    if node.type ≠ FS_FILE then none
    else if (List.range node.block_count).all
        (fun i => decide (node.start_block + i < fs.bitmap.total_blocks_)) then
      some (String.mk (readBuffer fs node))
    else none

/-- INodeManager::read_file. -/
def read_file (fs : FS) (path : String) : Option String :=
  match resolve_path fs path with
  | none => none
  | some id =>
    match read_inode fs id with
    | none => none
    | some node =>
      if node.type ≠ FS_FILE then none
      else read_file_data fs id

/-- The last index of a slash, std::string::find_last_of. -/
def lastIndexOfSlash (cs : List Char) : Option Nat :=
  (List.range cs.length).foldl
    (fun acc i => if cs.getD i ' ' = '/' then some i else acc) none

/-- The parent-path / filename split used by create_file (and cmd_mkdir):
parent is "/" when the last slash is at position 0, else the prefix; the
filename is the suffix after the last slash. -/
def splitAtLastSlash (s : String) : String × String :=
  match lastIndexOfSlash s.data with
  | none => (s, s)
  | some i =>
    (if i = 0 then "/" else String.mk (s.data.take i),
     String.mk (s.data.drop (i + 1)))

/-- INodeManager::is_valid_filename (identical to the facade's). -/
def is_valid_filename (name : String) : Bool :=
  if name.length = 0 ∨ name.length > 63 then false
  else name.data.all (fun c =>
    ! ((c == '/') || (c == Char.ofNat 0) || (c == '\\') || (c == ':') ||
       (c == '*') || (c == '?') || (c == '"') || (c == '<') || (c == '>') ||
       (c == '|')))

/-- INodeManager::create_file.  With empty content the size passed to
create_inode is 1, not 0, and no data is written.  A negative non- -1
create_inode code falls through into write_file_data after the int32 to
uint32 conversion. -/
def create_file (fs : FS) (normalized content : String) : Bool × FS :=
  if ! is_valid_filename (splitAtLastSlash normalized).2 then (false, fs)
  else
    match resolve_path fs (splitAtLastSlash normalized).1 with
    | none => (false, fs)
    | some parent_inode =>
      if (find_inode fs parent_inode (splitAtLastSlash normalized).2).isSome
        then (false, fs)
      else
        match create_inode fs parent_inode FS_FILE
            (splitAtLastSlash normalized).2
            (if content.length = 0 then 1 else content.length) with
        | (r, fs2) =>
          if r = -1 then (false, fs2)
          else if content.length ≠ 0 then
            write_file_data fs2 (r % 4294967296).toNat content
          else (true, fs2)

/-- The duplicate-slash collapsing loop of INodeManager::normalize_path. -/
def collapseSlashes : List Char → List Char
  | [] => []
  | c :: rest =>
    match collapseSlashes rest with
    | [] => [c]
    | c2 :: rest2 =>
      if c = '/' ∧ c2 = '/' then c2 :: rest2 else c :: c2 :: rest2

/-- INodeManager::normalize_path. -/
def im_normalize_path (path : String) : String :=
  let base := if path.length = 0 ∨ path.data.headD ' ' ≠ '/' then "/" ++ path
    else path
  let collapsed := collapseSlashes base.data
  String.mk (if collapsed.length > 1 ∧ collapsed.getLast? = some '/' then
    collapsed.dropLast else collapsed)

/-- INodeManager::create_directory. -/
def create_directory (fs : FS) (parent_path name : String) : Bool × FS :=
  match resolve_path fs (im_normalize_path parent_path) with
  | none => (false, fs)
  | some parent_inode =>
    if (find_inode fs parent_inode name).isSome then (false, fs)
    else
      match create_inode fs parent_inode FS_DIRECTORY name 0 with
      | (r, fs2) =>
        if r = -1 then (false, fs2)
        else
          match read_inode fs2 (r % 4294967296).toNat with
          | none => (false, (delete_inode fs2 (r % 4294967296).toNat).2)
          | some _ =>
            match save_directory_content fs2 (r % 4294967296).toNat
                ((dAdd ((dAdd [] "." (r % 4294967296).toNat
                    FS_DIRECTORY).getD [])
                  ".." parent_inode FS_DIRECTORY).getD
                  ((dAdd [] "." (r % 4294967296).toNat FS_DIRECTORY).getD []))
                with
            | none => (false, (delete_inode fs2 (r % 4294967296).toNat).2)
            | some fs3 => (true, fs3)

/-- The FileInfo struct (timestamps omitted). -/
structure FileInfo where
  name : String
  path : String
  is_directory : Bool
  size : Nat
  block_count : Nat
  start_block : Nat
  inode_id : Nat
deriving DecidableEq

/-- The FileInfo default constructor (inode_id 0 marks not-found). -/
instance : Inhabited FileInfo :=
  ⟨{ name := "", path := "", is_directory := false, size := 0,
     block_count := 0, start_block := 0, inode_id := 0 }⟩

/-- INodeManager::get_file_info. -/
def get_file_info (fs : FS) (path : String) : FileInfo :=
  match resolve_path fs path with
  | none => default
  | some id =>
    match read_inode fs id with
    | none => default
    | some node =>
      { name := node.name, path := path,
        is_directory := node.type == FS_DIRECTORY, size := node.size,
        block_count := node.block_count, start_block := node.start_block,
        inode_id := node.id }

/-- INodeManager::list_directory. -/
def list_directory (fs : FS) (normalized : String) : List FileInfo :=
  match resolve_path fs normalized with
  | none => []
  | some dir_inode =>
    match get_directory fs dir_inode with
    | none => []
    | some entries =>
      entries.foldr (fun e acc =>
        match read_inode fs e.inode_id with
        | none => acc
        | some node =>
          { name := e.name, path := normalized ++ "/" ++ e.name,
            is_directory := node.type == FS_DIRECTORY, size := node.size,
            block_count := node.block_count, start_block := node.start_block,
            inode_id := node.id } :: acc) []

/-- INodeManager::delete_file. -/
def delete_file (fs : FS) (path : String) : Bool × FS :=
  match resolve_path fs path with
  | none => (false, fs)
  | some id =>
    match read_inode fs id with
    | none => (false, fs)
    | some node =>
      if node.type ≠ FS_FILE then (false, fs)
      else delete_inode fs id

/-- The skip test of delete_directory_recursive: the C++ source compares
entry.name, a char[64] array, against the string literals "." and ".."
with operator==.  Both operands decay to pointers, so this is a pointer
comparison of distinct objects and is always false: the names are never
compared by content. -/
def nameLiteralPtrEq (_name _lit : String) : Bool := false

/-- The entry loop of delete_directory_recursive over the snapshot of the
directory's entries; recurse is the recursive call at one less remaining
stack depth. -/
def ddrLoop (recurse : FS → Nat → Option (Bool × FS)) :
    FS → List SDirEntry → Option (Bool × FS)
  | fs, [] => some (true, fs)
  | fs, e :: rest =>
    if nameLiteralPtrEq e.name "." || nameLiteralPtrEq e.name ".." then
      ddrLoop recurse fs rest
    else
      match read_inode fs e.inode_id with
      | none => ddrLoop recurse fs rest
      | some child =>
        if child.type = FS_DIRECTORY then
          match recurse fs e.inode_id with
          | none => none
          | some (false, fs1) => some (false, fs1)
          | some (true, fs1) => ddrLoop recurse fs1 rest
        else
          match delete_inode fs e.inode_id with
          | (false, fs1) => some (false, fs1)
          | (true, fs1) => ddrLoop recurse fs1 rest

/-- INodeManager::delete_directory_recursive, indexed by the recursion
depth still allowed (the C++ call stack); none means the C++ recursion has
not returned within that depth. -/
def delete_directory_recursive : Nat → FS → Nat → Option (Bool × FS)
  | 0, _, _ => none
  | fuel + 1, fs, dir_id =>
    if dir_id = ROOT_INODE_ID then some (false, fs)
    else
      match get_directory fs dir_id with
      | none => some (false, fs)
      | some entries =>
        match ddrLoop (delete_directory_recursive fuel) fs entries with
        | none => none
        | some (false, fs1) => some (false, fs1)
        | some (true, fs1) => some (delete_inode fs1 dir_id)

/-- INodeManager::delete_directory. -/
def delete_directory (fuel : Nat) (fs : FS) (path : String) :
    Option (Bool × FS) :=
  match resolve_path fs path with
  | none => some (false, fs)
  | some id =>
    match read_inode fs id with
    | none => some (false, fs)
    | some node =>
      if node.type ≠ FS_DIRECTORY then some (false, fs)
      else if id = ROOT_INODE_ID then some (false, fs)
      else delete_directory_recursive fuel fs id

/-- INodeManager::create_root_directory, called unconditionally by mount:
allocates a fresh data block, overwrites inode 1, marks it used, and saves
a fresh page holding only "." and "..". -/
def create_root_directory (fs : FS) : Bool × FS :=
  match fs.bitmap.allocate_consecutive_blocks 1 with
  | (none, _) => (false, fs)
  | (some start_block, bm2) =>
    match write_inode { fs with bitmap := bm2 } ROOT_INODE_ID
        { id := ROOT_INODE_ID, type := FS_DIRECTORY, size := 0,
          start_block := start_block, block_count := 1,
          parent_id := ROOT_INODE_ID, name := "/" } with
    | none => (false, { fs with
        bitmap := (bm2.free_consecutive_blocks start_block 1) })
    | some fs2 =>
      match dAdd [] "." ROOT_INODE_ID FS_DIRECTORY with
      | none => (false, { fs2 with
          bitmap := (fs2.bitmap.free_consecutive_blocks start_block 1),
          inode_used := (fs2.inode_used.set ROOT_INODE_ID true),
          inode_count := fs2.inode_count + 1 })
      | some e1 =>
        match dAdd e1 ".." ROOT_INODE_ID FS_DIRECTORY with
        | none => (false, { fs2 with
            bitmap := (fs2.bitmap.free_consecutive_blocks start_block 1),
            inode_used := (fs2.inode_used.set ROOT_INODE_ID true),
            inode_count := fs2.inode_count + 1 })
        | some e2 =>
          match save_directory_content { fs2 with
              inode_used := (fs2.inode_used.set ROOT_INODE_ID true),
              inode_count := fs2.inode_count + 1 } ROOT_INODE_ID e2 with
          | none => (false, (delete_inode { fs2 with
              bitmap := (fs2.bitmap.free_consecutive_blocks start_block 1),
              inode_used := (fs2.inode_used.set ROOT_INODE_ID true),
              inode_count := fs2.inode_count + 1 } ROOT_INODE_ID).2)
          | some fs3 => (true, fs3)

/-- The persistent content of the backing file between unmount and mount,
by region (block 0 for the bitmap, the inode table, directory payloads,
file data blocks). -/
structure DiskImage where
  total_blocks_ : Nat
  block0 : List Nat
  inodeTab : List INode
  dirTab : List (List SDirEntry)
  fileBlocks : Nat → List Char

/-- SimpleFileSystem::format: VirtualDisk::create zero-fills the backing
file of size_mb megabytes; nothing else is written (the bitmap is neither
initialized nor saved by format). -/
def format (size_mb : Nat) : DiskImage :=
  { total_blocks_ := size_mb * 1024 * 1024 / BLOCK_SIZE
    block0 := List.replicate BLOCK_SIZE 0
    inodeTab := List.replicate MAX_FILES default
    dirTab := List.replicate MAX_FILES []
    fileBlocks := fun _ => List.replicate BLOCK_SIZE (Char.ofNat 0) }

/-- SimpleFileSystem::mount: open the disk, load the bitmap from block 0,
build a fresh INodeManager (inode_used_ all false: the constructor does
not scan the table and initialize() is a no-op), then unconditionally
call create_root_directory. -/
def mount (img : DiskImage) : Option FS :=
  match FreeBitmap.load
      { bitmap_ := [], total_blocks_ := 0, free_blocks_ := 0 }
      img.total_blocks_ img.block0 with
  | (false, _) => none
  | (true, bm) =>
    match create_root_directory
        { bitmap := bm, inode_used := (List.replicate MAX_FILES false),
          inode_count := 0, inodeTab := img.inodeTab, dirTab := img.dirTab,
          fileBlocks := img.fileBlocks } with
    | (false, _) => none
    | (true, fs1) => some fs1

/-- SimpleFileSystem::unmount: flush the cache (a no-op: the INodeManager
writes to the disk directly and the cache holds nothing), save the bitmap
into block 0, drop the components. -/
def unmount (fs : FS) : DiskImage :=
  { total_blocks_ := fs.bitmap.total_blocks_
    block0 := fs.bitmap.bitmap_
    inodeTab := fs.inodeTab
    dirTab := fs.dirTab
    fileBlocks := fs.fileBlocks }

end IM

/-! ## The SimpleFileSystem facade state (filesystem.cpp) -/

namespace SFS

/-- The facade: mount flag, current directory, open-file reference counts
(an association list standing for the unordered_map), and the mounted
component state. -/
structure St where
  mounted_ : Bool
  current_path_ : String
  open_files_ : List (String × Int)
  fs : IM.FS

def ofLookup (m : List (String × Int)) (k : String) : Option Int :=
  (m.find? (fun p => p.1 == k)).map (fun p => p.2)

def ofSet (m : List (String × Int)) (k : String) (v : Int) :
    List (String × Int) :=
  m.map (fun p => if p.1 = k then (p.1, v) else p)

def ofErase (m : List (String × Int)) (k : String) : List (String × Int) :=
  m.filter (fun p => p.1 != k)

/-- The operator[]-and-increment of SimpleFileSystem::open_file. -/
def ofBump (m : List (String × Int)) (k : String) : List (String × Int) :=
  match ofLookup m k with
  | some c => ofSet m k (c + 1)
  | none => m ++ [(k, 1)]

/-- SimpleFileSystem::normalize_path. -/
def normalize_path (cwd path : String) : String :=
  match (IM.split_path
      (if path = "" then cwd
       else if path.data.headD ' ' = '/' then path
       else if cwd = "/" then "/" ++ path else cwd ++ "/" ++ path)) with
  | [] => "/"
  | comps => comps.foldl (fun acc c => acc ++ "/" ++ c) ""

/-- SimpleFileSystem::is_file_protected. -/
def is_file_protected (s : St) (path : String) : Bool :=
  match ofLookup s.open_files_ path with
  | some c => decide (c > 0)
  | none => false

/-- SimpleFileSystem::delete_file (the rm path; the argument is already
normalized by the caller). -/
def delete_file (s : St) (normalized : String) : Int × St :=
  if ! s.mounted_ then (-1, s)
  else if is_file_protected s normalized then (-2, s)
  else if (IM.get_file_info s.fs normalized).inode_id = 0
      ∨ (IM.get_file_info s.fs normalized).is_directory then (-3, s)
  else
    match IM.delete_file s.fs normalized with
    | (false, fs2) => (-4, { s with fs := fs2 })
    | (true, fs2) => (0, { s with fs := fs2 })

/-- SimpleFileSystem::open_file. -/
def open_file (s : St) (path : String) : Bool × St :=
  if ! s.mounted_ then (false, s)
  else if (IM.get_file_info s.fs
      (normalize_path s.current_path_ path)).inode_id = 0 then (false, s)
  else (true, { s with open_files_ := (ofBump s.open_files_
      (normalize_path s.current_path_ path)) })

/-- SimpleFileSystem::close_file. -/
def close_file (s : St) (path : String) : Bool × St :=
  if ! s.mounted_ then (false, s)
  else
    match ofLookup s.open_files_ (normalize_path s.current_path_ path) with
    | none => (false, s)
    | some c =>
      if c ≤ 0 then (false, s)
      else if c - 1 = 0 then
        (true, { s with open_files_ := (ofErase s.open_files_
            (normalize_path s.current_path_ path)) })
      else
        (true, { s with open_files_ := (ofSet s.open_files_
            (normalize_path s.current_path_ path) (c - 1)) })

end SFS

/-! ## Concrete scenario states -/

namespace IM

/-- A fresh 1 MiB (256-block) image: format then mount. -/
def base_fs : FS := (mount (format 1)).getD default

/-- The C1 run: format, mount, create /a.txt with content "hi". -/
def c1_created : Option FS :=
  (mount (format 1)).bind (fun fs =>
    match create_file fs "/a.txt" "hi" with
    | (false, _) => none
    | (true, fs2) => some fs2)

/-- Root listing and file content before unmount. -/
def c1_pre : Option (List String × Option String) :=
  c1_created.map (fun fs =>
    ((list_directory fs "/").map (fun i => i.name), read_file fs "/a.txt"))

/-- The state after unmount and a second mount. -/
def c1_remounted : Option FS :=
  c1_created.bind (fun fs => mount (unmount fs))

/-- Root listing, resolution and read of /a.txt after the second mount. -/
def c1_post : Option (List String × Option Nat × Option String) :=
  c1_remounted.map (fun fs =>
    ((list_directory fs "/").map (fun i => i.name),
     resolve_path fs "/a.txt", read_file fs "/a.txt"))

/-- The C2 witness state: a fresh filesystem with one directory /d. -/
def c2_fs : FS := (create_directory base_fs "/" "d").2

/-- The C5 witness state: /b created with empty content (touch). -/
def c5_fs : FS := (create_file base_fs "/b" "").2

end IM

namespace SFS

/-- The S4 facade state: mounted at the root, /b present, nothing open. -/
def c5_st0 : St :=
  { mounted_ := true, current_path_ := "/", open_files_ := [], fs := IM.c5_fs }

/-- The facade state after taking one open reference on /b. -/
def c5_open : St := (open_file c5_st0 "/b").2

/-- The facade state after closing that reference. -/
def c5_closed : St := (close_file c5_open "/b").2

end SFS

/-! ## Proof layer: FreeBitmap lemmas -/

namespace FreeBitmap

theorem testBit_or_pow_self (x b : Nat) : (x ||| (1 <<< b)).testBit b = true := by
  rw [Nat.shiftLeft_eq, one_mul, Nat.testBit_or, Nat.testBit_two_pow]
  simp

theorem testBit_or_pow_ne (x b k : Nat) (h : k ≠ b) :
    (x ||| (1 <<< b)).testBit k = x.testBit k := by
  rw [Nat.shiftLeft_eq, one_mul, Nat.testBit_or, Nat.testBit_two_pow]
  simp [Ne.symm h]

theorem testBit_255 (k : Nat) (h : k < 8) : (255 : Nat).testBit k = true := by
  have h8 : (255 : Nat) = 2 ^ 8 - 1 := by norm_num
  rw [h8, Nat.testBit_two_pow_sub_one]
  simpa using h

theorem testBit_and_mask_self (x b : Nat) (hb : b < 8) :
    (x &&& (255 ^^^ (1 <<< b))).testBit b = false := by
  rw [Nat.shiftLeft_eq, one_mul, Nat.testBit_and, Nat.testBit_xor,
    Nat.testBit_two_pow]
  simp [testBit_255 b hb]

theorem testBit_and_mask_ne (x b k : Nat) (hk : k < 8) (h : k ≠ b) :
    (x &&& (255 ^^^ (1 <<< b))).testBit k = x.testBit k := by
  rw [Nat.shiftLeft_eq, one_mul, Nat.testBit_and, Nat.testBit_xor,
    Nat.testBit_two_pow]
  simp [testBit_255 k hk, Ne.symm h]

theorem set_block_status_total (fb : FreeBitmap) (i : Nat) (a : Bool) :
    (fb.set_block_status i a).total_blocks_ = fb.total_blocks_ := by
  unfold set_block_status
  split
  · rfl
  · split <;> rfl

theorem set_block_status_len (fb : FreeBitmap) (i : Nat) (a : Bool) :
    (fb.set_block_status i a).bitmap_.length = fb.bitmap_.length := by
  unfold set_block_status
  split
  · rfl
  · split <;> simp

theorem set_block_status_oob (fb : FreeBitmap) (i : Nat) (a : Bool)
    (hi : fb.total_blocks_ ≤ i) : fb.set_block_status i a = fb := by
  unfold set_block_status
  simp [hi]

theorem is_block_free_oob (fb : FreeBitmap) (j : Nat)
    (hj : fb.total_blocks_ ≤ j) : fb.is_block_free j = false := by
  unfold is_block_free
  simp [hj]

theorem set_block_status_bitmap (fb : FreeBitmap) (i : Nat) (a : Bool)
    (hi : i < fb.total_blocks_) :
    (fb.set_block_status i a).bitmap_ =
      fb.bitmap_.set (i / 8)
        (if a then (fb.bitmap_.getD (i / 8) 0) ||| (1 <<< (i % 8))
         else (fb.bitmap_.getD (i / 8) 0) &&& (255 ^^^ (1 <<< (i % 8)))) := by
  unfold set_block_status
  rw [if_neg (by omega)]
  cases a <;> simp

theorem set_block_status_free (fb : FreeBitmap) (i : Nat) (a : Bool)
    (hi : i < fb.total_blocks_) :
    (fb.set_block_status i a).free_blocks_ =
      if a then
        (if (fb.bitmap_.getD (i / 8) 0).testBit (i % 8) then fb.free_blocks_
         else (fb.free_blocks_ + (U32 - 1)) % U32)
      else
        (if (fb.bitmap_.getD (i / 8) 0).testBit (i % 8) then
           (fb.free_blocks_ + 1) % U32
         else fb.free_blocks_) := by
  unfold set_block_status
  rw [if_neg (by omega)]
  cases a <;> cases h : (fb.bitmap_.getD (i / 8) 0).testBit (i % 8) <;>
    simp only [h] <;> simp

theorem is_block_free_set_self (fb : FreeBitmap)
    (hWF : (fb.total_blocks_ + 7) / 8 ≤ fb.bitmap_.length) (i : Nat) (a : Bool)
    (hi : i < fb.total_blocks_) :
    (fb.set_block_status i a).is_block_free i = !a := by
  have hlen : i / 8 < fb.bitmap_.length := by omega
  have hb : i % 8 < 8 := Nat.mod_lt _ (by norm_num)
  unfold is_block_free
  rw [set_block_status_total, if_neg (by omega),
    set_block_status_bitmap fb i a hi]
  have hget : ∀ v : Nat, ((fb.bitmap_.set (i / 8) v).getD (i / 8) 0) = v := by
    intro v
    simp [List.getD, List.getElem?_set_self, hlen]
  cases a with
  | true => rw [if_pos rfl, hget, testBit_or_pow_self]
  | false =>
    rw [if_neg (fun h => nomatch h), hget, testBit_and_mask_self _ _ hb]

theorem is_block_free_set_ne (fb : FreeBitmap) (i : Nat) (a : Bool) (j : Nat)
    (hji : j ≠ i) :
    (fb.set_block_status i a).is_block_free j = fb.is_block_free j := by
  by_cases hi : fb.total_blocks_ ≤ i
  · rw [set_block_status_oob fb i a hi]
  · push_neg at hi
    by_cases hj : fb.total_blocks_ ≤ j
    · rw [is_block_free_oob _ j, is_block_free_oob _ j hj]
      rw [set_block_status_total]
      exact hj
    · push_neg at hj
      have hbj : j % 8 < 8 := Nat.mod_lt _ (by norm_num)
      unfold is_block_free
      rw [set_block_status_total, if_neg (by omega), if_neg (by omega),
        set_block_status_bitmap fb i a hi]
      by_cases hbyte : j / 8 = i / 8
      · have hne : j % 8 ≠ i % 8 := by
          intro hmod
          apply hji
          omega
        have hget : ∀ v : Nat, ((fb.bitmap_.set (i / 8) v).getD (j / 8) 0)
            = if i / 8 < fb.bitmap_.length then v
              else fb.bitmap_.getD (j / 8) 0 := by
          intro v
          by_cases hl : i / 8 < fb.bitmap_.length
          · rw [hbyte]
            simp [List.getD, List.getElem?_set_self, hl]
          · rw [List.set_eq_of_length_le (by omega)]
            simp [hl]
        rw [hget]
        split
        · cases a with
          | true =>
            rw [if_pos rfl, testBit_or_pow_ne _ _ _ hne, hbyte]
          | false =>
            rw [if_neg (fun h => nomatch h),
              testBit_and_mask_ne _ _ _ hbj hne, hbyte]
        · rfl
      · have hget2 : ∀ v : Nat, ((fb.bitmap_.set (i / 8) v).getD (j / 8) 0)
            = fb.bitmap_.getD (j / 8) 0 := by
          intro v
          simp [List.getD, List.getElem?_set_ne (Ne.symm hbyte)]
        rw [hget2]

theorem countP_range_succ (p : Nat → Bool) (n : Nat) :
    (List.range (n + 1)).countP p
      = (List.range n).countP p + (if p n then 1 else 0) := by
  rw [List.range_succ, List.countP_append]
  simp [List.countP_cons]

theorem countP_range_eq_add (p q : Nat → Bool) (i : Nat)
    (h1 : p i = true) (h2 : q i = false) (h3 : ∀ j, j ≠ i → q j = p j) :
    ∀ n, (List.range n).countP p
      = (List.range n).countP q + (if i < n then 1 else 0)
  | 0 => by simp
  | n + 1 => by
    rw [countP_range_succ, countP_range_succ,
      countP_range_eq_add p q i h1 h2 h3 n]
    by_cases hn : n = i
    · subst hn
      rw [h1, h2]
      simp only [if_true, if_false]
      have hlt : ¬ (n < n) := Nat.lt_irrefl n
      have hlt2 : n < n + 1 := Nat.lt_succ_self n
      simp [hlt, hlt2]
    · rw [h3 n hn]
      by_cases hin : i < n
      · have h' : i < n + 1 := by omega
        simp only [if_pos hin, if_pos h']
        omega
      · have h' : ¬ (i < n + 1) := by omega
        simp only [if_neg hin, if_neg h']
        omega

theorem countP_range_congr (p q : Nat → Bool) :
    ∀ (n : Nat), (∀ j, j < n → q j = p j) →
      (List.range n).countP q = (List.range n).countP p
  | 0, _ => by simp
  | n + 1, h => by
    rw [countP_range_succ, countP_range_succ,
      countP_range_congr p q n (fun j hj => h j (by omega)),
      h n (by omega)]

theorem countP_add_countP_not {α : Type} (l : List α) (p : α → Bool) :
    l.countP p + l.countP (fun a => ! p a) = l.length := by
  induction l with
  | nil => simp
  | cons x xs ih =>
    rw [List.countP_cons, List.countP_cons, List.length_cons]
    cases h : p x <;> simp [h] <;> omega

theorem freeCount_add_popcount (fb : FreeBitmap) :
    fb.freeCount + fb.popcountInRange = fb.total_blocks_ := by
  unfold freeCount popcountInRange
  have h := countP_add_countP_not (List.range fb.total_blocks_) fb.is_block_free
  rw [List.length_range] at h
  exact h

theorem freeCount_le (fb : FreeBitmap) : fb.freeCount ≤ fb.total_blocks_ := by
  have h := freeCount_add_popcount fb
  omega

theorem Inv_iff (fb : FreeBitmap) : fb.Inv ↔ fb.free_blocks_ = fb.freeCount := by
  unfold Inv
  have h := freeCount_add_popcount fb
  omega

theorem WF_set_block_status (fb : FreeBitmap) (i : Nat) (a : Bool)
    (h : fb.WF) : (fb.set_block_status i a).WF := by
  unfold WF at *
  rw [set_block_status_total, set_block_status_len]
  exact h

theorem testBit_eq_not_free (fb : FreeBitmap) (i : Nat)
    (hi : i < fb.total_blocks_) :
    (fb.bitmap_.getD (i / 8) 0).testBit (i % 8) = ! fb.is_block_free i := by
  unfold is_block_free
  rw [if_neg (by omega), Bool.not_not]

theorem Inv_set_block_status (fb : FreeBitmap) (hInv : fb.Inv) (hWF : fb.WF)
    (i : Nat) (a : Bool) : (fb.set_block_status i a).Inv := by
  by_cases hi : fb.total_blocks_ ≤ i
  · rw [set_block_status_oob fb i a hi]
    exact hInv
  · push_neg at hi
    rw [Inv_iff] at hInv ⊢
    have htot : (fb.set_block_status i a).total_blocks_ = fb.total_blocks_ :=
      set_block_status_total fb i a
    have hfree := set_block_status_free fb i a hi
    have htb := testBit_eq_not_free fb i hi
    have hle : (List.range fb.total_blocks_).countP fb.is_block_free
        ≤ fb.total_blocks_ := by
      have h := List.countP_le_length (p := fb.is_block_free)
        (l := List.range fb.total_blocks_)
      rwa [List.length_range] at h
    have hU : fb.total_blocks_ < U32 := hWF.2
    have hself := is_block_free_set_self fb hWF.1 i a hi
    have hne := fun j h => is_block_free_set_ne fb i a j h
    have hgoal : (fb.set_block_status i a).freeCount
        = (List.range fb.total_blocks_).countP
            (fb.set_block_status i a).is_block_free := by
      unfold freeCount
      rw [htot]
    cases a with
    | true =>
      cases hf : fb.is_block_free i with
      | true =>
        -- allocating a free block: the free count drops by one
        have hcnt := countP_range_eq_add fb.is_block_free
          (fb.set_block_status i true).is_block_free i hf
          (by rw [hself]; rfl) hne fb.total_blocks_
        rw [if_pos hi] at hcnt
        have hfree2 : (fb.set_block_status i true).free_blocks_
            = (fb.free_blocks_ + (U32 - 1)) % U32 := by
          rw [hfree, htb, hf]
          simp
        rw [hgoal, hfree2]
        unfold freeCount at hInv
        have hU2 : fb.total_blocks_ < 4294967296 := hU
        have hmod : (fb.free_blocks_ + (U32 - 1)) % U32
            = (fb.free_blocks_ + 4294967295) % 4294967296 := rfl
        rw [hmod]
        omega
      | false =>
        -- allocating an allocated block: nothing changes
        have hcnt : (List.range fb.total_blocks_).countP
            (fb.set_block_status i true).is_block_free
            = (List.range fb.total_blocks_).countP fb.is_block_free := by
          apply countP_range_congr
          intro j hj
          by_cases hji : j = i
          · subst hji
            simp [hself, hf]
          · exact hne j hji
        have hfree2 : (fb.set_block_status i true).free_blocks_
            = fb.free_blocks_ := by
          rw [hfree, htb, hf]
          simp
        rw [hgoal, hfree2, hcnt]
        exact hInv
    | false =>
      cases hf : fb.is_block_free i with
      | false =>
        -- freeing an allocated block: the free count rises by one
        have hcnt := countP_range_eq_add
          (fb.set_block_status i false).is_block_free fb.is_block_free i
          (by rw [hself]; rfl) hf (fun j h => (hne j h).symm) fb.total_blocks_
        rw [if_pos hi] at hcnt
        have hfree2 : (fb.set_block_status i false).free_blocks_
            = (fb.free_blocks_ + 1) % U32 := by
          rw [hfree, htb, hf]
          simp
        rw [hgoal, hfree2]
        unfold freeCount at hInv
        have hle2 : (List.range fb.total_blocks_).countP
            (fb.set_block_status i false).is_block_free ≤ fb.total_blocks_ := by
          have h := List.countP_le_length
            (p := (fb.set_block_status i false).is_block_free)
            (l := List.range fb.total_blocks_)
          rwa [List.length_range] at h
        have hU2 : fb.total_blocks_ < 4294967296 := hU
        have hmod : (fb.free_blocks_ + 1) % U32
            = (fb.free_blocks_ + 1) % 4294967296 := rfl
        rw [hmod]
        omega
      | true =>
        -- freeing a free block: nothing changes
        have hcnt : (List.range fb.total_blocks_).countP
            (fb.set_block_status i false).is_block_free
            = (List.range fb.total_blocks_).countP fb.is_block_free := by
          apply countP_range_congr
          intro j hj
          by_cases hji : j = i
          · subst hji
            simp [hself, hf]
          · exact hne j hji
        have hfree2 : (fb.set_block_status i false).free_blocks_
            = fb.free_blocks_ := by
          rw [hfree, htb, hf]
          simp
        rw [hgoal, hfree2, hcnt]
        exact hInv

theorem Inv_foldl_set (f : Nat → Nat) (a : Bool) :
    ∀ (l : List Nat) (fb : FreeBitmap), fb.Inv → fb.WF →
      (l.foldl (fun s b => s.set_block_status (f b) a) fb).Inv ∧
      (l.foldl (fun s b => s.set_block_status (f b) a) fb).WF ∧
      (l.foldl (fun s b => s.set_block_status (f b) a) fb).total_blocks_
        = fb.total_blocks_
  | [], fb, h, hw => ⟨h, hw, rfl⟩
  | x :: xs, fb, h, hw => by
    rw [List.foldl_cons]
    have ih := Inv_foldl_set f a xs (fb.set_block_status (f x) a)
      (Inv_set_block_status fb h hw (f x) a) (WF_set_block_status fb (f x) a hw)
    refine ⟨ih.1, ih.2.1, ?_⟩
    rw [ih.2.2, set_block_status_total]

theorem Inv_recomputeFree (fb : FreeBitmap) : fb.recomputeFree.Inv := by
  rw [Inv_iff]
  rfl

theorem is_block_free_lt (fb : FreeBitmap) (j : Nat)
    (h : fb.is_block_free j = true) : j < fb.total_blocks_ := by
  by_contra hc
  rw [is_block_free_oob fb j (by omega)] at h
  exact absurd h (by simp)

theorem findFreeFrom_some (fb : FreeBitmap) :
    ∀ (fuel start b : Nat), fb.findFreeFrom start fuel = some b →
      fb.is_block_free b = true ∧ start ≤ b ∧ b < start + fuel ∧
      (∀ k, start ≤ k → k < b → fb.is_block_free k = false)
  | 0, start, b, h => by simp [findFreeFrom] at h
  | fuel + 1, start, b, h => by
    rw [findFreeFrom] at h
    by_cases hfree : fb.is_block_free start = true
    · rw [if_pos hfree] at h
      cases h
      exact ⟨hfree, Nat.le_refl _, by omega, fun k h1 h2 => by omega⟩
    · rw [if_neg hfree] at h
      have ih := findFreeFrom_some fb fuel (start + 1) b h
      refine ⟨ih.1, by omega, by omega, ?_⟩
      intro k h1 h2
      by_cases hk : k = start
      · subst hk
        exact Bool.eq_false_iff.mpr hfree
      · exact ih.2.2.2 k (by omega) h2

theorem findFreeFrom_none (fb : FreeBitmap) :
    ∀ (fuel start : Nat), fb.findFreeFrom start fuel = none →
      ∀ k, start ≤ k → k < start + fuel → fb.is_block_free k = false
  | 0, start, _, k, h1, h2 => by omega
  | fuel + 1, start, h, k, h1, h2 => by
    rw [findFreeFrom] at h
    by_cases hfree : fb.is_block_free start = true
    · rw [if_pos hfree] at h
      cases h
    · rw [if_neg hfree] at h
      by_cases hk : k = start
      · subst hk
        exact Bool.eq_false_iff.mpr hfree
      · exact findFreeFrom_none fb fuel (start + 1) h k (by omega) (by omega)

theorem findConsecFrom_some (fb : FreeBitmap) (count : Nat) :
    ∀ (fuel start s : Nat), fb.findConsecFrom count start fuel = some s →
      fb.allFreeRun s count = true ∧ start ≤ s ∧ s < start + fuel ∧
      (∀ t, start ≤ t → t < s → fb.allFreeRun t count = false)
  | 0, start, s, h => by simp [findConsecFrom] at h
  | fuel + 1, start, s, h => by
    rw [findConsecFrom] at h
    by_cases hrun : fb.allFreeRun start count = true
    · rw [if_pos hrun] at h
      cases h
      exact ⟨hrun, Nat.le_refl _, by omega, fun t h1 h2 => by omega⟩
    · rw [if_neg hrun] at h
      have ih := findConsecFrom_some fb count fuel (start + 1) s h
      refine ⟨ih.1, by omega, by omega, ?_⟩
      intro t h1 h2
      by_cases ht : t = start
      · subst ht
        exact Bool.eq_false_iff.mpr hrun
      · exact ih.2.2.2 t (by omega) h2

theorem findConsecFrom_none (fb : FreeBitmap) (count : Nat) :
    ∀ (fuel start : Nat), fb.findConsecFrom count start fuel = none →
      ∀ t, start ≤ t → t < start + fuel → fb.allFreeRun t count = false
  | 0, start, _, t, h1, h2 => by omega
  | fuel + 1, start, h, t, h1, h2 => by
    rw [findConsecFrom] at h
    by_cases hrun : fb.allFreeRun start count = true
    · rw [if_pos hrun] at h
      cases h
    · rw [if_neg hrun] at h
      by_cases ht : t = start
      · subst ht
        exact Bool.eq_false_iff.mpr hrun
      · exact findConsecFrom_none fb count fuel (start + 1) h t
          (by omega) (by omega)

theorem allFreeRun_iff (fb : FreeBitmap) (s n : Nat) :
    fb.allFreeRun s n = true ↔ ∀ i, i < n → fb.is_block_free (s + i) = true := by
  unfold allFreeRun
  rw [List.all_eq_true]
  constructor
  · intro h i hi
    exact h i (List.mem_range.mpr hi)
  · intro h i hi
    exact h i (List.mem_range.mp hi)

theorem allFreeRun_in_range (fb : FreeBitmap) (s n : Nat) (hn : 1 ≤ n)
    (h : fb.allFreeRun s n = true) : s + n ≤ fb.total_blocks_ := by
  rw [allFreeRun_iff] at h
  have hlast := is_block_free_lt fb (s + (n - 1)) (h (n - 1) (by omega))
  omega

theorem countP_free_ge_run (fb : FreeBitmap) (s : Nat) :
    ∀ n, (∀ i, i < n → fb.is_block_free (s + i) = true) →
      n ≤ (List.range (s + n)).countP fb.is_block_free
  | 0, _ => Nat.zero_le _
  | n + 1, h => by
    have ih := countP_free_ge_run fb s n (fun i hi => h i (by omega))
    have hr : s + (n + 1) = (s + n) + 1 := by omega
    rw [hr, countP_range_succ, h n (by omega)]
    simp
    omega

theorem countP_range_mono (p : Nat → Bool) :
    ∀ (n m : Nat), m ≤ n →
      (List.range m).countP p ≤ (List.range n).countP p
  | 0, m, h => by
    have : m = 0 := by omega
    subst this
    exact Nat.le_refl _
  | n + 1, m, h => by
    by_cases hm : m = n + 1
    · subst hm
      exact Nat.le_refl _
    · have ih := countP_range_mono p n m (by omega)
      rw [countP_range_succ]
      omega

theorem free_blocks_zero_iff (fb : FreeBitmap) (hInv : fb.Inv) :
    fb.free_blocks_ = 0 ↔ ∀ b, fb.is_block_free b = false := by
  rw [Inv_iff] at hInv
  rw [hInv]
  unfold freeCount
  constructor
  · intro h b
    by_cases hb : b < fb.total_blocks_
    · have := List.countP_eq_zero.mp h
      have hmem := this b (List.mem_range.mpr hb)
      exact Bool.eq_false_iff.mpr hmem
    · exact is_block_free_oob fb b (by omega)
  · intro h
    apply List.countP_eq_zero.mpr
    intro b _
    rw [h b]
    simp



/-! ### Claim theorems about the bitmap -/

theorem initialize0_is_block_free (fb : FreeBitmap) (j : Nat)
    (hj : j < fb.total_blocks_) : fb.initialize0.is_block_free j = true := by
  unfold initialize0 is_block_free
  have hget : (List.replicate fb.bitmap_.length (0 : Nat)).getD (j / 8) 0
      = 0 := by
    by_cases h : j / 8 < fb.bitmap_.length
    · simp [List.getD, List.getElem?_replicate, h]
    · simp [List.getD, List.getElem?_replicate, h]
  simp [hj, hget]

/-- C7: every FreeBitmap operation (initialize, allocate_block,
allocate_consecutive_blocks, free_block, free_consecutive_blocks,
mark_block_used, deserialize_from, load) preserves the invariant that the
recorded free-block count equals total_blocks minus the number of 1-bits in
the (length-total_blocks) bitmap bit array; freeing an already-free block or
allocating an already-allocated block leaves the count unchanged. -/
theorem C7_free_count_invariant (fb : FreeBitmap) (hInv : fb.Inv)
    (hWF : fb.WF) :
    fb.initialize0.Inv
    ∧ (fb.allocate_block).2.Inv
    ∧ (∀ n, (fb.allocate_consecutive_blocks n).2.Inv)
    ∧ (∀ i, (fb.free_block i).Inv)
    ∧ (∀ s n, (fb.free_consecutive_blocks s n).Inv)
    ∧ (∀ i, (fb.mark_block_used i).Inv)
    ∧ (∀ buf, (fb.deserialize_from buf).2.Inv)
    ∧ (∀ dt b0, (fb.load dt b0).2.Inv)
    ∧ (∀ i, fb.is_block_free i = true →
        (fb.free_block i).free_blocks_ = fb.free_blocks_)
    ∧ (∀ i, fb.is_block_free i = false →
        (fb.mark_block_used i).free_blocks_ = fb.free_blocks_) := by
  refine ⟨?_, ?_, ?_, ?_, ?_, ?_, ?_, ?_, ?_, ?_⟩
  · -- initialize
    unfold Inv popcountInRange
    have hz : (List.range fb.initialize0.total_blocks_).countP
        (fun b => ! fb.initialize0.is_block_free b) = 0 := by
      apply List.countP_eq_zero.mpr
      intro j hj
      have hj2 := List.mem_range.mp hj
      have : fb.initialize0.total_blocks_ = fb.total_blocks_ := rfl
      rw [this] at hj2
      rw [initialize0_is_block_free fb j hj2]
      simp
    rw [hz]
    rfl
  · -- allocate_block
    unfold allocate_block
    by_cases h0 : fb.free_blocks_ = 0
    · rw [if_pos h0]
      exact hInv
    · rw [if_neg h0]
      cases hfind : fb.find_first_free_block with
      | none => exact hInv
      | some b => exact Inv_set_block_status fb hInv hWF b true
  · -- allocate_consecutive_blocks
    intro n
    unfold allocate_consecutive_blocks
    by_cases hn : n = 0
    · rw [if_pos hn]
      exact hInv
    · rw [if_neg hn]
      by_cases hgt : n > fb.free_blocks_
      · rw [if_pos hgt]
        exact hInv
      · rw [if_neg hgt]
        cases hfind : fb.find_consecutive_free_blocks n with
        | none => exact hInv
        | some start =>
          exact (Inv_foldl_set (fun i => start + i) true (List.range n)
            fb hInv hWF).1
  · -- free_block
    intro i
    unfold free_block
    by_cases hi : i ≥ fb.total_blocks_
    · rw [if_pos hi]
      exact hInv
    · rw [if_neg hi]
      exact Inv_set_block_status fb hInv hWF i false
  · -- free_consecutive_blocks
    intro st n
    unfold free_consecutive_blocks
    by_cases hc : st ≥ fb.total_blocks_ ∨ n = 0
    · rw [if_pos hc]
      exact hInv
    · rw [if_neg hc]
      exact (Inv_foldl_set (fun i => st + i) false
        (List.range (min (st + n) fb.total_blocks_ - st)) fb hInv hWF).1
  · -- mark_block_used
    intro i
    unfold mark_block_used
    by_cases hi : i ≥ fb.total_blocks_
    · rw [if_pos hi]
      exact hInv
    · rw [if_neg hi]
      exact Inv_set_block_status fb hInv hWF i true
  · -- deserialize_from
    intro buf
    unfold deserialize_from
    by_cases hlt : buf.length < fb.bitmap_.length
    · rw [if_pos hlt]
      exact hInv
    · rw [if_neg hlt]
      exact Inv_recomputeFree _
  · -- load
    intro dt b0
    unfold load
    by_cases hdt : dt = 0
    · rw [if_pos hdt]
      exact hInv
    · rw [if_neg hdt]
      exact Inv_recomputeFree _
  · -- freeing an already-free block keeps the count
    intro i hfree
    have hi := is_block_free_lt fb i hfree
    unfold free_block
    rw [if_neg (by omega), set_block_status_free fb i false hi,
      testBit_eq_not_free fb i hi, hfree]
    simp
  · -- allocating an already-allocated block keeps the count
    intro i hallocated
    unfold mark_block_used
    by_cases hi : i ≥ fb.total_blocks_
    · rw [if_pos hi]
    · rw [if_neg hi, set_block_status_free fb i true (by omega),
        testBit_eq_not_free fb i (by omega), hallocated]
      simp

/-- Witness for C7 at a concrete reachable bitmap. -/
theorem C7_free_count_invariant_witness :
    (FreeBitmap.create 8).initialize0.Inv ∧
    ((FreeBitmap.create 8).allocate_block).2.Inv ∧
    ((FreeBitmap.create 8).free_block 3).Inv := by
  have h := C7_free_count_invariant (FreeBitmap.create 8) (by decide)
    (by decide)
  exact ⟨h.1, h.2.1, h.2.2.2.1 3⟩

/-- C3 counterexample: the bitmap fresh from the constructor has free blocks
at index 2 and above, yet allocate_block hands out block 0: the scan starts
at index 0, not 2, and blocks 0 and 1 are not reserved. -/
theorem C3_counterexample :
    (FreeBitmap.create 8).is_block_free 2 = true ∧
    ((FreeBitmap.create 8).allocate_block).1 = some 0 := by
  decide

/-- C3 (amended): allocate_block returns the lowest-index free block,
scanning from index 0 (blocks 0 and 1 are not excluded), and fails exactly
when no free block exists; allocate_consecutive_blocks(n) returns the lowest
start s ≥ 0 whose n blocks are all free, first-fit from index 0, and fails
exactly when no such run exists. -/
theorem C3_first_fit_from_zero (fb : FreeBitmap) (hInv : fb.Inv) :
    (∀ b fb2, fb.allocate_block = (some b, fb2) →
        fb.is_block_free b = true ∧ ∀ k, k < b → fb.is_block_free k = false)
    ∧ ((fb.allocate_block).1 = none ↔ ∀ b, fb.is_block_free b = false)
    ∧ (∀ n s fb2, fb.allocate_consecutive_blocks n = (some s, fb2) →
        fb.allFreeRun s n = true ∧ ∀ t, t < s → fb.allFreeRun t n = false)
    ∧ (∀ n, 1 ≤ n → ((fb.allocate_consecutive_blocks n).1 = none ↔
        ∀ s, fb.allFreeRun s n = false)) := by
  refine ⟨?_, ⟨?_, ?_⟩, ?_, ?_⟩
  · intro b fb2 h
    unfold allocate_block at h
    by_cases h0 : fb.free_blocks_ = 0
    · rw [if_pos h0] at h
      simp at h
    · rw [if_neg h0] at h
      cases hfind : fb.find_first_free_block with
      | none =>
        rw [hfind] at h
        simp at h
      | some c =>
        rw [hfind] at h
        unfold find_first_free_block at hfind
        have hc := findFreeFrom_some fb fb.total_blocks_ 0 c hfind
        have hcb : c = b := by
          injection h with h1 h2
          injection h1
        subst hcb
        exact ⟨hc.1, fun k hk => hc.2.2.2 k (Nat.zero_le k) hk⟩
  · intro hnone b
    unfold allocate_block at hnone
    by_cases h0 : fb.free_blocks_ = 0
    · exact (free_blocks_zero_iff fb hInv).mp h0 b
    · rw [if_neg h0] at hnone
      cases hfind : fb.find_first_free_block with
      | none =>
        unfold find_first_free_block at hfind
        by_cases hb : b < fb.total_blocks_
        · exact findFreeFrom_none fb fb.total_blocks_ 0 hfind b
            (Nat.zero_le b) (by omega)
        · exact is_block_free_oob fb b (by omega)
      | some c =>
        rw [hfind] at hnone
        simp at hnone
  · intro hall
    have h0 : fb.free_blocks_ = 0 := (free_blocks_zero_iff fb hInv).mpr hall
    unfold allocate_block
    rw [if_pos h0]
  · intro n s fb2 h
    unfold allocate_consecutive_blocks at h
    by_cases hn : n = 0
    · rw [if_pos hn] at h
      simp at h
    · rw [if_neg hn] at h
      by_cases hgt : n > fb.free_blocks_
      · rw [if_pos hgt] at h
        simp at h
      · rw [if_neg hgt] at h
        cases hfind : fb.find_consecutive_free_blocks n with
        | none =>
          rw [hfind] at h
          simp at h
        | some c =>
          rw [hfind] at h
          unfold find_consecutive_free_blocks at hfind
          rw [if_neg (fun hc => hc.elim hn hgt)] at hfind
          have hc := findConsecFrom_some fb n _ 0 c hfind
          have hcs : c = s := by
            injection h with h1 h2
            injection h1
          subst hcs
          exact ⟨hc.1, fun t ht => hc.2.2.2 t (Nat.zero_le t) ht⟩
  · intro n hn
    constructor
    · intro hnone s
      unfold allocate_consecutive_blocks at hnone
      rw [if_neg (by omega)] at hnone
      by_cases hgt : n > fb.free_blocks_
      · by_contra hrun
        rw [Bool.not_eq_false] at hrun
        have hin := allFreeRun_in_range fb s n hn hrun
        have hge := countP_free_ge_run fb s n ((allFreeRun_iff fb s n).mp hrun)
        have hmono := countP_range_mono fb.is_block_free fb.total_blocks_
          (s + n) hin
        rw [Inv_iff] at hInv
        unfold freeCount at hInv
        omega
      · rw [if_neg hgt] at hnone
        cases hfind : fb.find_consecutive_free_blocks n with
        | some c =>
          rw [hfind] at hnone
          simp at hnone
        | none =>
          unfold find_consecutive_free_blocks at hfind
          rw [if_neg (fun hc => hc.elim (by omega) hgt)] at hfind
          have hnone2 := findConsecFrom_none fb n _ 0 hfind
          by_cases hs : s < fb.total_blocks_ - n + 1
          · exact hnone2 s (Nat.zero_le s) (by omega)
          · by_contra hrun
            rw [Bool.not_eq_false] at hrun
            have hin := allFreeRun_in_range fb s n hn hrun
            omega
    · intro hall
      unfold allocate_consecutive_blocks
      rw [if_neg (by omega)]
      by_cases hgt : n > fb.free_blocks_
      · rw [if_pos hgt]
      · rw [if_neg hgt]
        cases hfind : fb.find_consecutive_free_blocks n with
        | none => rfl
        | some c =>
          unfold find_consecutive_free_blocks at hfind
          rw [if_neg (fun hc => hc.elim (by omega) hgt)] at hfind
          have hc := findConsecFrom_some fb n _ 0 c hfind
          exact absurd hc.1 (by simp [hall c])

/-- Witness for C3 (amended) at a concrete bitmap. -/
theorem C3_first_fit_witness :
    ((FreeBitmap.create 8).allocate_block).1 = none ↔
      ∀ b, (FreeBitmap.create 8).is_block_free b = false :=
  (C3_first_fit_from_zero (FreeBitmap.create 8) (by decide)).2.1

/-- C9 counterexample: for a 4-block bitmap, is_block_allocated 4 (an
out-of-range index) returns false (reported free), not true. -/
theorem C9_counterexample :
    (FreeBitmap.create 4).total_blocks_ = 4 ∧
    (FreeBitmap.create 4).is_block_allocated 4 = false := by
  decide

/-- C9 (amended): for every block index at or beyond total_blocks_, the
is_block_allocated query reports the block as free (returns false). -/
theorem C9_out_of_range_reports_free (fb : FreeBitmap) (i : Nat)
    (h : fb.total_blocks_ ≤ i) : fb.is_block_allocated i = false := by
  unfold is_block_allocated
  simp [h]

/-- Witness for C9 (amended). -/
theorem C9_out_of_range_witness :
    (FreeBitmap.create 4).is_block_allocated 7 = false :=
  C9_out_of_range_reports_free (FreeBitmap.create 4) 7 (by decide)


end FreeBitmap

/-! ### Directory serialization round-trip (C8) -/

namespace Dir

theorem getD_append_ge (l l2 : List Nat) (n : Nat) (h : l.length ≤ n) :
    (l ++ l2).getD n 0 = l2.getD (n - l.length) 0 := by
  simp [List.getD, List.getElem?_append_right h]

theorem decodeU32_u32le (n : Nat) (h : n < U32) : decodeU32 (u32le n) = n := by
  have h2 : n < 4294967296 := h
  unfold decodeU32 u32le
  change n % 256 + 256 * (n / 256 % 256 + 256 *
    (n / 256 / 256 % 256 + 256 * (n / 256 / 256 / 256 % 256))) = n
  omega

theorem encodeEntry_length (e : DirectoryEntry) (hname : e.name.length = 64) :
    (encodeEntry e).length = entrySize := by
  simp [encodeEntry, u32le, entrySize, hname]

theorem decodeEntry_encodeEntry (e : DirectoryEntry)
    (hname : e.name.length = 64) (hid : e.inode_id < U32) :
    decodeEntry (encodeEntry e) = e := by
  rcases e with ⟨eid, ename, etype⟩
  simp only at hname hid
  unfold decodeEntry encodeEntry
  dsimp only
  have h4 : (u32le eid).length = 4 := rfl
  have htake : ((u32le eid ++ (ename ++ [etype, 0, 0, 0]))).take 4
      = u32le eid := by
    rw [← h4, List.take_left]
  have hdrop : ((u32le eid ++ (ename ++ [etype, 0, 0, 0]))).drop 4
      = ename ++ [etype, 0, 0, 0] := by
    rw [← h4, List.drop_left]
  have hname2 : (ename ++ [etype, 0, 0, 0]).take 64 = ename := by
    rw [← hname, List.take_left]
  have htype : ((u32le eid ++ (ename ++ [etype, 0, 0, 0]))).getD 68 0
      = etype := by
    rw [getD_append_ge _ _ 68 (by rw [h4]; omega), h4,
      getD_append_ge _ _ (68 - 4) (by omega), hname]
    rfl
  rw [List.append_assoc, htake, hdrop, hname2, htype,
    decodeU32_u32le eid hid]

theorem flatten_encode_length (entries : List DirectoryEntry)
    (hwf : ∀ e ∈ entries, e.name.length = 64 ∧ e.inode_id < U32) :
    ((entries.map encodeEntry).flatten).length
      = entrySize * entries.length := by
  induction entries with
  | nil => simp
  | cons e es ih =>
    rw [List.map_cons, List.flatten_cons, List.length_append,
      encodeEntry_length e (hwf e (by simp)).1,
      ih (fun x hx => hwf x (by simp [hx])), List.length_cons]
    ring

theorem parseEntries_flatten (entries : List DirectoryEntry)
    (hwf : ∀ e ∈ entries, e.name.length = 64 ∧ e.inode_id < U32) :
    parseEntries entries.length ((entries.map encodeEntry).flatten)
      = entries := by
  induction entries with
  | nil => rfl
  | cons e es ih =>
    rw [List.map_cons, List.flatten_cons, List.length_cons]
    have hlen := encodeEntry_length e (hwf e (by simp)).1
    unfold parseEntries
    have htake : ((encodeEntry e ++ (es.map encodeEntry).flatten)).take
        entrySize = encodeEntry e := by
      rw [← hlen, List.take_left]
    have hdrop : ((encodeEntry e ++ (es.map encodeEntry).flatten)).drop
        entrySize = (es.map encodeEntry).flatten := by
      rw [← hlen, List.drop_left]
    rw [htake, hdrop, decodeEntry_encodeEntry e (hwf e (by simp)).1
      (hwf e (by simp)).2, ih (fun x hx => hwf x (by simp [hx]))]

/-- C8: for every directory page with at most MAX_ENTRIES entries (each a
well-formed struct: a 64-byte name array and a uint32 inode id),
deserialize (serialize d) succeeds and returns exactly the original entry
list: same count and identical inode_id, type and name for each entry, in
order. -/
theorem C8_serialize_roundtrip (entries : List DirectoryEntry)
    (hlen : entries.length ≤ MAX_ENTRIES)
    (hwf : ∀ e ∈ entries, e.name.length = 64 ∧ e.inode_id < U32) :
    deserialize (serialize entries) = some entries := by
  unfold deserialize serialize
  have h4 : (u32le entries.length).length = 4 := rfl
  have hflat := flatten_encode_length entries hwf
  have hlength : (u32le entries.length ++
      (entries.map encodeEntry).flatten).length
      = 4 + entries.length * entrySize := by
    rw [List.length_append, h4, hflat]
    ring
  have htake : (u32le entries.length ++
      (entries.map encodeEntry).flatten).take 4 = u32le entries.length := by
    rw [← h4, List.take_left]
  have hdrop : (u32le entries.length ++
      (entries.map encodeEntry).flatten).drop 4
      = (entries.map encodeEntry).flatten := by
    rw [← h4, List.drop_left]
  have hcount : decodeU32 ((u32le entries.length ++
      (entries.map encodeEntry).flatten).take 4) = entries.length := by
    rw [htake]
    refine decodeU32_u32le entries.length ?_
    have hm : MAX_ENTRIES < U32 := by decide
    omega
  rw [if_neg (by omega)]
  simp only [hcount]
  have hC : ¬ ((u32le entries.length ++
      (entries.map encodeEntry).flatten).length
      ≠ 4 + entries.length * entrySize ∨ entries.length > MAX_ENTRIES) := by
    push_neg
    exact ⟨hlength, hlen⟩
  rw [if_neg hC, hdrop, parseEntries_flatten entries hwf]

/-- Witness for C8 at a concrete two-entry directory page. -/
theorem C8_serialize_roundtrip_witness :
    deserialize (serialize
      [⟨1, 46 :: List.replicate 63 0, 2⟩,
       ⟨7, 46 :: 46 :: List.replicate 62 0, 2⟩]) =
    some [⟨1, 46 :: List.replicate 63 0, 2⟩,
       ⟨7, 46 :: 46 :: List.replicate 62 0, 2⟩] :=
  C8_serialize_roundtrip _ (by decide) (by decide)

end Dir

/-! ### Cache lemmas (C4, C6) -/

theorem getD_set_eq {α : Type} [Inhabited α] (l : List α) (i : Nat) (v : α)
    (h : i < l.length) : (l.set i v).getD i default = v := by
  simp [List.getD, List.getElem?_set_self, h]

theorem getD_set_ne {α : Type} [Inhabited α] (l : List α) (i j : Nat) (v : α)
    (h : j ≠ i) : (l.set i v).getD j default = l.getD j default := by
  simp [List.getD, List.getElem?_set_ne (Ne.symm h)]

namespace Cache

theorem mapLookup_insert_self (m : List (Nat × Nat)) (k v : Nat) :
    mapLookup (mapInsert m k v) k = some v := by
  unfold mapLookup mapInsert
  rw [List.find?_cons_of_pos _ (by simp)]
  rfl

theorem mapLookup_mem (m : List (Nat × Nat)) (k v : Nat)
    (h : mapLookup m k = some v) : (k, v) ∈ m := by
  unfold mapLookup at h
  cases hf : m.find? (fun p => p.1 == k) with
  | none => rw [hf] at h; cases h
  | some p =>
    rw [hf] at h
    have hm := List.mem_of_find?_eq_some hf
    have hp := List.find?_some hf
    simp at hp h
    have : p = (k, v) := by
      cases p
      simp_all
    rw [this] at hm
    exact hm

theorem write_back_page_spec (d : VDisk) (c : CacheManager) (pidx : Nat) :
    ∀ r, write_back_page d c pidx = some r →
      (∀ n, DiskOp.read n ∉ r.2.2) ∧ r.1.pages_.length = c.pages_.length := by
  intro r hr
  unfold write_back_page at hr
  by_cases hb : (c.pages_.getD pidx default).block_no ≠ UINT32_MAX
  · rw [if_pos hb] at hr
    cases hw : VDisk.write_block d (c.pages_.getD pidx default).block_no
        (c.pages_.getD pidx default).data with
    | none => rw [hw] at hr; cases hr
    | some d2 =>
      rw [hw] at hr
      cases hr
      refine ⟨?_, by simp⟩
      intro n hmem
      simp at hmem
  · rw [if_neg hb] at hr
    cases hr
    exact ⟨by intro n hmem; simp at hmem, rfl⟩

theorem get_free_page_spec (d : VDisk) (c : CacheManager) (hWF : CacheWF c) :
    ∀ r, get_free_page d c = some r →
      (∀ n, DiskOp.read n ∉ r.2.2.2) ∧
      (∀ pi, r.1 = some pi → pi < r.2.1.pages_.length) ∧
      r.2.1.pages_.length = c.pages_.length := by
  intro r hr
  unfold get_free_page at hr
  split at hr
  · rename_i i hfind
    cases hr
    have hi : i < c.pages_.length :=
      List.mem_range.mp (List.mem_of_find?_eq_some hfind)
    refine ⟨?_, ?_, rfl⟩
    · intro n hmem
      simp at hmem
    · intro pi hpi
      cases hpi
      exact hi
  · split at hr
    · cases hr
      refine ⟨?_, ?_, rfl⟩
      · intro n hmem
        simp at hmem
      · intro pi hpi
        cases hpi
    · rename_i victim rest hq
      have hvic : victim < c.pages_.length := by
        apply hWF.2
        rw [hq]
        exact List.mem_cons_self victim rest
      split at hr
      · split at hr
        · cases hr
        · rename_i c2 d2 t hw
          cases hr
          have hwb := write_back_page_spec d { c with fifo_queue_ := rest }
            victim (c2, d2, t) hw
          refine ⟨hwb.1, ?_, hwb.2⟩
          intro pi hpi
          cases hpi
          rw [hwb.2]
          exact hvic
      · cases hr
        refine ⟨?_, ?_, rfl⟩
        · intro n hmem
          simp at hmem
        · intro pi hpi
          cases hpi
          exact hvic

/-- C4 counterexample: on a write miss the cache does not read the device.
Writing to block 200 of a 100-block disk through a fresh 4-frame cache
succeeds (true) and performs no device operation at all, while the claim
requires a device read of the block and failure when that read fails. -/
theorem C4_counterexample :
    (write_block c6_disk (CacheManager.mkCache 4 4096) 200 [1, 2]).map
      (fun r => (r.1, r.2.2.2)) = some (true, []) := by
  decide

/-- C4 (amended): CacheManager::write_block never performs a device read.
On a miss it acquires a frame via get_free_page (possibly writing back a
dirty victim) and overwrites that frame directly with buf, marking it
dirty and installing the mapping; prior device content of the block is not
fetched, and an out-of-range index does not make the write fail. -/
theorem C4_write_miss_no_fetch (d : VDisk) (c : CacheManager)
    (idx : Nat) (buf : List Nat) (hWF : CacheWF c) :
    ∀ ok c2 d2 t, write_block d c idx buf = some (ok, c2, d2, t) →
      (∀ n, DiskOp.read n ∉ t) ∧
      (ok = true → find_page c2 idx ≠ none ∧
        ∃ pi, find_page c2 idx = some pi ∧
          (c2.pages_.getD pi default).data = buf ∧
          (c2.pages_.getD pi default).dirty = true) := by
  intro ok c2 d2 t hr
  unfold write_block at hr
  cases hfp : find_page c idx with
  | some pi =>
    rw [hfp] at hr
    cases hr
    have hpi : pi < c.pages_.length := by
      apply hWF.1 (idx, pi)
      exact mapLookup_mem c.block_to_page_ idx pi hfp
    constructor
    · intro n hmem
      simp at hmem
    · intro _
      refine ⟨?_, pi, ?_, ?_, ?_⟩
      · show find_page c idx ≠ none
        rw [hfp]
        simp
      · exact hfp
      · rw [getD_set_eq _ _ _ hpi]
      · rw [getD_set_eq _ _ _ hpi]
  | none =>
    rw [hfp] at hr
    cases hgf : get_free_page d c with
    | none => rw [hgf] at hr; cases hr
    | some r1 =>
      rw [hgf] at hr
      obtain ⟨opt, c1, d1, t1⟩ := r1
      have hspec := get_free_page_spec d c hWF (opt, c1, d1, t1) hgf
      cases opt with
      | none =>
        cases hr
        exact ⟨hspec.1, by intro h; cases h⟩
      | some pi =>
        cases hr
        have hpi : pi < c1.pages_.length := hspec.2.1 pi rfl
        constructor
        · exact hspec.1
        · intro _
          refine ⟨?_, pi, ?_, ?_, ?_⟩
          · show mapLookup (mapInsert c1.block_to_page_ idx pi) idx ≠ none
            rw [mapLookup_insert_self]
            simp
          · exact mapLookup_insert_self c1.block_to_page_ idx pi
          · rw [getD_set_eq _ _ _ hpi]
          · rw [getD_set_eq _ _ _ hpi]

/-- Witness for C4 (amended): a concrete hit-path write. -/
theorem C4_write_miss_witness :
    (∀ n, DiskOp.read n ∉ ([] : List DiskOp)) ∧
    (true = true → find_page c4_after 10 ≠ none ∧
      ∃ pi, find_page c4_after 10 = some pi ∧
        (c4_after.pages_.getD pi default).data = [9] ∧
        (c4_after.pages_.getD pi default).dirty = true) :=
  C4_write_miss_no_fetch c6_disk c6_hit_cache 10 [9] (by decide)
    true c4_after c6_disk [] rfl

/-- C6: with 4 frames, reading blocks 10, 11, 12, 13, 14 in order leaves
block 10 non-resident (it was the FIFO head) and blocks 11-14 resident;
and a read hit returns the cached bytes without changing any cache state
(in particular the FIFO queue). -/
theorem C6_fifo_eviction :
    ((c6_final.map (fun p => (find_page p.1 10, (find_page p.1 11).isSome,
      (find_page p.1 12).isSome, (find_page p.1 13).isSome,
      (find_page p.1 14).isSome))) = some (none, true, true, true, true))
    ∧ (∀ d c b pi, find_page c b = some pi →
        read_block d c b
          = some (some ((c.pages_.getD pi default).data), c, d, [])) := by
  constructor
  · decide
  · intro d c b pi h
    unfold read_block
    rw [h]

/-- Witness for C6 (the hit clause) at a concrete one-frame cache. -/
theorem C6_fifo_eviction_witness :
    read_block c6_disk c6_hit_cache 10
      = some (some ((c6_hit_cache.pages_.getD 0 default).data),
          c6_hit_cache, c6_disk, []) :=
  C6_fifo_eviction.2 c6_disk c6_hit_cache 10 0 (by decide)

end Cache

/-! ### Filesystem-level lemmas (C1, C2, C5, C10) -/

namespace IM

theorem ddr_self_cycle (fs : FS) (id t : Nat) (rest : List SDirEntry)
    (h1 : id ≠ ROOT_INODE_ID) (h2 : id < MAX_FILES)
    (h3 : fs.inode_used.getD id false = true)
    (h4 : (fs.inodeTab.getD id default).type = FS_DIRECTORY)
    (h5 : fs.dirTab.getD id [] =
      { name := ".", inode_id := id, type := t } :: rest) :
    ∀ fuel, delete_directory_recursive fuel fs id = none := by
  have hread : read_inode fs id = some (fs.inodeTab.getD id default) := by
    unfold read_inode
    rw [if_neg (by omega), if_pos h3]
  have hdir : get_directory fs id =
      some ({ name := ".", inode_id := id, type := t } :: rest) := by
    unfold get_directory
    rw [hread]
    dsimp only
    rw [if_neg (fun hc => hc h4), h5]
  intro fuel
  induction fuel with
  | zero => rfl
  | succ n ih =>
    have hloop : ddrLoop (delete_directory_recursive n) fs
        ({ name := ".", inode_id := id, type := t } :: rest) = none := by
      show (match read_inode fs id with
        | none => ddrLoop (delete_directory_recursive n) fs rest
        | some child =>
          if child.type = FS_DIRECTORY then
            match delete_directory_recursive n fs id with
            | none => none
            | some (false, fs1) => some (false, fs1)
            | some (true, fs1) => ddrLoop (delete_directory_recursive n) fs1 rest
          else
            match delete_inode fs id with
            | (false, fs1) => some (false, fs1)
            | (true, fs1) => ddrLoop (delete_directory_recursive n) fs1 rest)
        = none
      rw [hread]
      dsimp only
      rw [if_pos h4, ih]
    show (if id = ROOT_INODE_ID then some (false, fs)
      else match get_directory fs id with
        | none => some (false, fs)
        | some entries =>
          match ddrLoop (delete_directory_recursive n) fs entries with
          | none => none
          | some (false, fs1) => some (false, fs1)
          | some (true, fs1) => some (delete_inode fs1 id)) = none
    rw [if_neg h1, hdir]
    dsimp only
    rw [hloop]

theorem save_directory_content_inodeTab (fs : FS) (d : Nat)
    (es : List SDirEntry) (fs2 : FS)
    (h : save_directory_content fs d es = some fs2) :
    ∃ x, fs2.inodeTab = fs.inodeTab.set d x := by
  unfold save_directory_content at h
  split at h
  · cases h
  · split at h
    · cases h
    · split at h
      · cases h
      · split at h
        · cases h
        · unfold write_inode at h
          split at h
          · cases h
          · cases h
            exact ⟨_, rfl⟩

theorem add_directory_entry_inodeTab (fs : FS) (d : Nat) (nm : String)
    (c t : Nat) (fs2 : FS)
    (h : add_directory_entry fs d nm c t = some fs2) :
    ∃ x, fs2.inodeTab = fs.inodeTab.set d x := by
  unfold add_directory_entry at h
  split at h
  · cases h
  · split at h
    · cases h
    · exact save_directory_content_inodeTab _ _ _ _ h

theorem create_inode_size1 (fs : FS) (parent : Nat) (nm : String) (i : Nat)
    (fs2 : FS) (htab : fs.inodeTab.length = MAX_FILES)
    (h : create_inode fs parent FS_FILE nm 1 = (Int.ofNat i, fs2)) :
    (fs2.inodeTab.getD i default).size = 1 ∧
    (fs2.inodeTab.getD i default).block_count = 1 := by
  unfold create_inode at h
  split at h
  · have h1 := congrArg Prod.fst h
    simp at h1
  · split at h
    · have h1 := congrArg Prod.fst h
      simp at h1
    · rename_i slot hfind
      split at h
      · have h1 := congrArg Prod.fst h
        simp at h1
      · rename_i start bm2 halloc
        dsimp only at h
        split at h
        · have h1 := congrArg Prod.fst h
          simp at h1
        · rename_i fs3 hwrite
          unfold write_inode at hwrite
          split at hwrite
          · cases hwrite
          · rename_i hslot
            cases hwrite
            split at h
            · split at h
              · have h1 := congrArg Prod.fst h
                simp at h1
              · rename_i hpar _ fs4 hadd
                have h1 := congrArg Prod.fst h
                have h2 := congrArg Prod.snd h
                simp at h1 h2
                obtain ⟨x, hx⟩ := add_directory_entry_inodeTab _ _ _ _ _ _ hadd
                subst h1
                rw [← h2]
                dsimp only
                rw [hx]
                dsimp only
                rw [getD_set_ne _ _ _ _ (Ne.symm hpar), getD_set_eq]
                · constructor
                  · rfl
                  · show (if FS_FILE = FS_FILE then calculate_blocks_needed 1
                      else 1) = 1
                    rw [if_pos rfl]
                    decide
                · simp [htab]
                  omega
            · rename_i hpar
              have h1 := congrArg Prod.fst h
              have h2 := congrArg Prod.snd h
              simp at h1 h2
              subst h1
              rw [← h2]
              dsimp only
              rw [getD_set_eq]
              · constructor
                · rfl
                · show (if FS_FILE = FS_FILE then calculate_blocks_needed 1
                    else 1) = 1
                  rw [if_pos rfl]
                  decide
              · simp [htab]
                omega

/-- C1: format (1 MiB), mount, create /a.txt with content "hi": before
unmount the root directory lists ".", "..", "a.txt" and reading /a.txt
yields "hi"; but after unmount and a second mount the root directory holds
only "." and ".." (mount unconditionally recreates the root directory and
never rebuilds the in-memory inode-used table from the on-disk inode
table), so /a.txt no longer resolves and can no longer be read: the
created file does not survive a remount. -/
theorem C1_remount_loses_files :
    c1_pre = some ([".", "..", "a.txt"], some "hi") ∧
    c1_post = some ([".", ".."], none, none) := ⟨rfl, rfl⟩

/-- C2: delete_directory does not terminate on an ordinary directory.
The skip test of delete_directory_recursive compares the char-array entry
name with a string literal by pointer, which is never true, so the "."
self-entry is never skipped: for every non-root directory whose page
starts with its "." self-entry, delete_directory_recursive exhausts any
recursion depth (returns none at every fuel); in particular deleting the
freshly created directory /d never returns. -/
theorem C2_delete_directory_diverges :
    (∀ (fs : FS) (id t : Nat) (rest : List SDirEntry) (fuel : Nat),
      id ≠ ROOT_INODE_ID → id < MAX_FILES →
      fs.inode_used.getD id false = true →
      (fs.inodeTab.getD id default).type = FS_DIRECTORY →
      fs.dirTab.getD id [] =
        { name := ".", inode_id := id, type := t } :: rest →
      delete_directory_recursive fuel fs id = none) ∧
    (∀ fuel, delete_directory fuel c2_fs "/d" = none) := by
  constructor
  · intro fs id t rest fuel h1 h2 h3 h4 h5
    exact ddr_self_cycle fs id t rest h1 h2 h3 h4 h5 fuel
  · intro fuel
    show delete_directory_recursive fuel c2_fs 2 = none
    exact ddr_self_cycle c2_fs 2 FS_DIRECTORY [⟨"..", 1, FS_DIRECTORY⟩]
      (by decide) (by decide) (by decide) (by decide) (by decide) fuel

/-- Witness for C2: at the concrete state holding the directory /d
(inode 2), the recursion is still running at depth 1000. -/
theorem C2_delete_directory_diverges_witness :
    delete_directory_recursive 1000 c2_fs 2 = none ∧
    delete_directory 1000 c2_fs "/d" = none :=
  ⟨C2_delete_directory_diverges.1 c2_fs 2 FS_DIRECTORY
      [⟨"..", 1, FS_DIRECTORY⟩] 1000 (by decide) (by decide) (by decide)
      (by decide) (by decide),
   C2_delete_directory_diverges.2 1000⟩

/-- C10: create_inode with type file and size 1 (the size create_file
passes for empty content) leaves the new inode with size 1 and one data
block; concretely, after creating /b with empty content its file info
reports size 1 and block count 1, and reading /b returns a one-byte
string, not the empty string. -/
theorem C10_touch_size_one :
    (∀ (fs : FS) (parent : Nat) (nm : String) (i : Nat) (fs2 : FS),
      fs.inodeTab.length = MAX_FILES →
      create_inode fs parent FS_FILE nm 1 = (Int.ofNat i, fs2) →
      (fs2.inodeTab.getD i default).size = 1 ∧
      (fs2.inodeTab.getD i default).block_count = 1) ∧
    ((get_file_info c5_fs "/b").size = 1 ∧
     (get_file_info c5_fs "/b").block_count = 1 ∧
     (read_file c5_fs "/b").map String.length = some 1 ∧
     read_file c5_fs "/b" ≠ some "") := by
  constructor
  · intro fs parent nm i fs2 htab h
    exact create_inode_size1 fs parent nm i fs2 htab h
  · decide

/-- Witness for C10: creating "x" (size 1) on the freshly mounted
filesystem yields inode 2 with size 1 and one block. -/
theorem C10_touch_size_one_witness :
    ((create_inode base_fs 1 FS_FILE "x" 1).2.inodeTab.getD 2
        default).size = 1 ∧
    ((create_inode base_fs 1 FS_FILE "x" 1).2.inodeTab.getD 2
        default).block_count = 1 :=
  C10_touch_size_one.1 base_fs 1 "x" 2
    (create_inode base_fs 1 FS_FILE "x" 1).2 rfl
    (by rw [show Int.ofNat 2 = (create_inode base_fs 1 FS_FILE "x" 1).1
        by decide])

end IM

namespace SFS

/-- C5: for every mounted facade state and path whose open reference
count is positive, delete_file returns the busy code -2 and the whole
state (inode table, directories, bitmap, open list) is returned
unchanged; and in the S4 scenario (/b created by touch, opened once),
the open succeeds, rm fails busy with the state unchanged, close
succeeds, the second rm returns 0, and afterwards the root listing no
longer shows b and /b no longer resolves. -/
theorem C5_busy_then_delete :
    (∀ (s : St) (p : String), s.mounted_ = true →
      is_file_protected s p = true → delete_file s p = (-2, s)) ∧
    ((open_file c5_st0 "/b").1 = true ∧
     delete_file c5_open "/b" = (-2, c5_open) ∧
     (close_file c5_open "/b").1 = true ∧
     (delete_file c5_closed "/b").1 = 0 ∧
     (IM.list_directory (delete_file c5_closed "/b").2.fs "/").map
       (fun i => i.name) = [".", ".."] ∧
     IM.resolve_path (delete_file c5_closed "/b").2.fs "/b" = none) := by
  constructor
  · intro s p hm hp
    unfold delete_file
    rw [hm, hp]
    rfl
  · exact ⟨rfl, rfl, rfl, by decide, by decide, by decide⟩

/-- Witness for C5: the busy clause applied at the concrete state where
/b is open once. -/
theorem C5_busy_then_delete_witness :
    delete_file c5_open "/b" = (-2, c5_open) :=
  C5_busy_then_delete.1 c5_open "/b" rfl (by decide)

end SFS

end OSFS
